import Mathlib

/-!
Verification of the query-resource cache (`QueryResource.js`, given as
`src/unnamed/part_000`) and of the pagination coordinator of the `relay`
repository, against its natural-language specification.

The JavaScript source is shallowly embedded: the mutable closures of
`createQueryResourceCacheEntry` become pure functions threading an explicit
`CacheEntry` value and a `QRState` (the LRU cache plus the multiset of store
retains); promises and errors stored in the cache become the tagged
`EntryValue` type; the network observable's callbacks become the `netStep`
transition on a `FetchSession`.  Entries are identified by their cache key;
in every trace considered here at most one live entry exists per key, so
the by-key write-back of entry mutations is faithful to the JS aliasing.
Network events are delivered asynchronously (after `prepare` returns), as in
the tests that drive this module; synchronous delivery during `subscribe` is
not modelled.
-/

namespace Relay

/-- `CACHE_CAPACITY` from the source (line 21). -/
def CACHE_CAPACITY : Nat := 1000

/-- `DEFAULT_FETCH_POLICY` from the source (line 23). -/
def DEFAULT_FETCH_POLICY : String := "store-or-network"

/-- `DEFAULT_RENDER_POLICY` from the source (lines 24-27): depends on the
process-wide feature flag `ENABLE_PARTIAL_RENDERING_DEFAULT`, passed here as
a parameter. -/
def DEFAULT_RENDER_POLICY (enablePartialRenderingDefault : Bool) : String :=
  if enablePartialRenderingDefault then "partial" else "full"

/-- The parts of an `OperationDescriptor` that this module touches:
`operation.request.identifier`, `operation.root` (the root retained in the
store, reduced to its identifier), `operation.fragment.node.name` (equal to
`operation.request.node.fragment`'s name) and `operation.fragment.dataID`. -/
structure OperationDescriptor where
  identifier : String
  rootId : String
  fragmentName : String
  fragmentDataID : String
deriving Repr, DecidableEq

/-- The `QueryResult` record built by `getQueryResult` (source lines 61-69). -/
structure QueryResult where
  cacheKey : String
  fragmentNodeName : String
  fragmentRefId : String
  operation : OperationDescriptor
deriving Repr, DecidableEq

/-- `getQueryCacheKey` (source lines 71-77). -/
def getQueryCacheKey (operation : OperationDescriptor)
    (fetchPolicy renderPolicy : String) : String :=
  fetchPolicy ++ "-" ++ renderPolicy ++ "-" ++ operation.identifier

/-- `getQueryResult` (source lines 79-96). -/
def getQueryResult (operation : OperationDescriptor) (cacheKey : String) :
    QueryResult :=
  { cacheKey := cacheKey
    fragmentNodeName := operation.fragmentName
    fragmentRefId := operation.fragmentDataID
    operation := operation }

/-- The value held by a cache entry: `Error | Promise<void> | QueryResult`
(source line 56).  The pending network promise carries no payload; whether
it has been resolved is tracked in `FetchSession`. -/
inductive EntryValue
  | err (message : String)
  | pending
  | ready (result : QueryResult)
deriving Repr, DecidableEq

/-- The mutable state captured by the closures of
`createQueryResourceCacheEntry` (source lines 98-203): `currentValue`,
`retainCount`, `permanentlyRetained`, whether `retainDisposable != null` and
whether `releaseTemporaryRetain != null`.  `retainCount` is an `Int` so that
the source's `Math.max(0, retainCount - 1)` clamp is represented rather than
assumed. -/
structure CacheEntry where
  cacheKey : String
  operation : OperationDescriptor
  value : EntryValue
  retainCount : Int
  permanentlyRetained : Bool
  retainDisposable : Bool
  tempRetainActive : Bool
deriving Repr, DecidableEq

/-- `createQueryResourceCacheEntry` (source lines 98-108): a fresh entry has
retain count 0, no disposable and no temporary retain. -/
def createQueryResourceCacheEntry (cacheKey : String)
    (operation : OperationDescriptor) (value : EntryValue) : CacheEntry :=
  { cacheKey := cacheKey
    operation := operation
    value := value
    retainCount := 0
    permanentlyRetained := false
    retainDisposable := false
    tempRetainActive := false }

/-- The bounded cache, most recently set entry first. -/
abbrev CacheMap := List (String × CacheEntry)

/-- Modelled from the spec: `LRUCache.get`.  The file `./LRUCache` required
by the source (line 15) is not among the provided sources; the spec says the
cache is "a fixed maximum entry count with least-recently-used
displacement".  Lookup by key; the recency refresh on reads is omitted since
no claim exercises eviction order (no trace here reaches the capacity of
1000 entries). -/
def cacheGet (cache : CacheMap) (key : String) : Option CacheEntry :=
  List.lookup key cache

/-- Modelled from the spec: `LRUCache.set`.  Inserts the entry at the
most-recent position, displacing the least recently used entry if the
capacity is exceeded. -/
def cacheSet (cache : CacheMap) (key : String) (entry : CacheEntry) :
    CacheMap :=
  ((key, entry) :: cache.filter (fun p => p.1 != key)).take CACHE_CAPACITY

/-- Modelled from the spec: `LRUCache.delete`. -/
def cacheDelete (cache : CacheMap) (key : String) : CacheMap :=
  cache.filter (fun p => p.1 != key)

/-- Write-back of a mutation of the entry object: in JS the cache holds the
same mutable object, so mutating the entry updates it in place without
changing its recency. -/
def cacheUpdate (cache : CacheMap) (key : String) (entry : CacheEntry) :
    CacheMap :=
  cache.map (fun p => if p.1 == key then (key, entry) else p)

/-- The state surrounding one `QueryResourceImpl`: its LRU cache and the
multiset (as a list) of roots currently retained in the environment's store
(`environment.retain(operation.root)`). -/
structure QRState where
  cache : CacheMap
  storeRetains : List String
deriving Repr, DecidableEq

/-- The `retain` closure inside `createQueryResourceCacheEntry` (source
lines 110-114): increments the count and, exactly on the 0-to-1 transition,
acquires the store retain of the operation root and stores its disposable. -/
def entryRetain (e : CacheEntry) (storeRetains : List String) :
    CacheEntry × List String :=
  let rc := e.retainCount + 1
  if rc = 1 then
    ({ e with retainCount := rc, retainDisposable := true },
      e.operation.rootId :: storeRetains)
  else
    ({ e with retainCount := rc }, storeRetains)

/-- The `dispose` closure of the token returned by the entry `retain`
(source lines 116-128), before the trailing `onDispose` call:
`retainCount = Math.max(0, retainCount - 1)`; on reaching 0 the invariant
demands the store-retain disposable be present (`none` models the invariant
failure), releases it and clears it. -/
def entryTokenDisposeInner (e : CacheEntry) (storeRetains : List String) :
    Option (CacheEntry × List String) :=
  let rc := max 0 (e.retainCount - 1)
  if rc = 0 then
    if e.retainDisposable then
      some ({ e with retainCount := rc, retainDisposable := false },
        storeRetains.erase e.operation.rootId)
    else
      none
  else
    some ({ e with retainCount := rc }, storeRetains)

/-- `QueryResourceImpl._onDispose` (source lines 351-355): delete the entry
from the cache when its retain count has dropped to zero or below.  Takes
the entry object (whose current count is read) and acts on the cache. -/
def onDisposeEntry (e : CacheEntry) (cache : CacheMap) : CacheMap :=
  if e.retainCount ≤ 0 then cacheDelete cache e.cacheKey else cache

/-- The complete dispose action of an entry retain token: the inner dispose
followed by the `onDispose` callback (source line 127), with the entry
mutation written back to the cache.  The returned entry is the live object
(still meaningful even if the entry was just evicted). -/
def entryTokenDispose (e : CacheEntry) (s : QRState) :
    Option (CacheEntry × QRState) :=
  match entryTokenDisposeInner e s.storeRetains with
  | none => none
  | some (e2, retains) =>
    let cache := cacheUpdate s.cache e2.cacheKey e2
    some (e2, { cache := onDisposeEntry e2 cache, storeRetains := retains })

/-- `temporaryRetain` (source lines 143-183), with
`ExecutionEnvironment.canUseDOM` as an explicit parameter.  Outside the DOM
it does nothing; on a permanently retained entry it does nothing; otherwise
it acquires a fresh retain token, schedules the auto-release timeout
(represented by `tempRetainActive`), releases any previous temporary retain
and registers the new release.  Returns `none` on an invariant failure
inside the released previous retain (unreachable from well-formed
entries). -/
def temporaryRetain (canUseDOM : Bool) (e : CacheEntry) (s : QRState) :
    Option (CacheEntry × QRState) :=
  if !canUseDOM then
    some (e, s)
  else if e.permanentlyRetained then
    some (e, s)
  else
    let (e1, retains1) := entryRetain e s.storeRetains
    let s1 : QRState :=
      { cache := cacheUpdate s.cache e1.cacheKey e1, storeRetains := retains1 }
    let released : Option (CacheEntry × QRState) :=
      if e1.tempRetainActive then entryTokenDispose e1 s1 else some (e1, s1)
    match released with
    | none => none
    | some (e2, s2) =>
      let e3 := { e2 with tempRetainActive := true }
      some (e3, { s2 with cache := cacheUpdate s2.cache e3.cacheKey e3 })

/-- `permanentRetain` (source lines 185-199): acquire a retain token,
release any pending temporary retain (cancelling its timeout), mark the
entry permanently retained. -/
def permanentRetain (e : CacheEntry) (s : QRState) :
    Option (CacheEntry × QRState) :=
  let (e1, retains1) := entryRetain e s.storeRetains
  let s1 : QRState :=
    { cache := cacheUpdate s.cache e1.cacheKey e1, storeRetains := retains1 }
  let released : Option (CacheEntry × QRState) :=
    if e1.tempRetainActive then
      match entryTokenDispose { e1 with tempRetainActive := false } s1 with
      | none => none
      | some (e2, s2) =>
        some (e2, { s2 with cache := cacheUpdate s2.cache e2.cacheKey e2 })
    else
      some (e1, s1)
  match released with
  | none => none
  | some (e2, s2) =>
    let e3 := { e2 with permanentlyRetained := true }
    some (e3, { s2 with cache := cacheUpdate s2.cache e3.cacheKey e3 })

/-- The dispose action of the disposable returned by `permanentRetain`
(source lines 193-198): dispose the inner retain token, then clear
`permanentlyRetained`. -/
def permanentRetainDispose (e : CacheEntry) (s : QRState) :
    Option (CacheEntry × QRState) :=
  match entryTokenDispose e s with
  | none => none
  | some (e2, s2) =>
    let e3 := { e2 with permanentlyRetained := false }
    some (e3, { s2 with cache := cacheUpdate s2.cache e3.cacheKey e3 })

/-- `QueryResourceImpl.retain` (source lines 313-339): look the entry up by
the result's cache key, creating and inserting a fresh entry holding the
ready result if absent, then permanently retain it. -/
def queryRetain (qr : QueryResult) (s : QRState) :
    Option (CacheEntry × QRState) :=
  let found : CacheEntry × QRState :=
    match cacheGet s.cache qr.cacheKey with
    | some e => (e, s)
    | none =>
      let e := createQueryResourceCacheEntry qr.cacheKey qr.operation
        (EntryValue.ready qr)
      (e, { s with cache := cacheSet s.cache qr.cacheKey e })
  permanentRetain found.1 found.2

/-- The dispose action of the disposable returned by
`QueryResourceImpl.retain` (source lines 328-338): dispose the permanent
retain, then (the `cacheEntry != null` invariant always holds here) call
`_onDispose` once more with the entry object.  The closure captured the
entry object; it is recovered from the cache by key, which is valid as long
as the entry has not been evicted and replaced (`none` otherwise). -/
def queryRetainDispose (key : String) (s : QRState) : Option QRState :=
  match cacheGet s.cache key with
  | none => none
  | some e =>
    match permanentRetainDispose e s with
    | none => none
    | some (e2, s2) => some { s2 with cache := onDisposeEntry e2 s2.cache }

/-- `QueryResourceImpl._cacheResult` (source lines 357-366). -/
def cacheResult (operation : OperationDescriptor) (cacheKey : String)
    (s : QRState) : QRState :=
  let qr := getQueryResult operation cacheKey
  let e := createQueryResourceCacheEntry cacheKey operation
    (EntryValue.ready qr)
  { s with cache := cacheSet s.cache cacheKey e }

/-- The `switch (fetchPolicy)` of `_fetchAndSaveQuery` (source lines
383-410), returning `(shouldFetch, shouldAllowRender)`.  The JS `switch` on
a string is an equality chain; `network-only` and the `default` branch
coincide. -/
def fetchDecision (fetchPolicy : String) (hasFullQuery : Bool)
    (renderPolicy : String) : Bool × Bool :=
  let canPartialRender := hasFullQuery || renderPolicy == "partial"
  if fetchPolicy == "store-only" then (false, true)
  else if fetchPolicy == "store-or-network" then (!hasFullQuery, canPartialRender)
  else if fetchPolicy == "store-and-network" then (true, canPartialRender)
  else (true, false)

/-- The data captured by the subscription installed in `_fetchAndSaveQuery`
(source lines 441-489): the cache key and operation seen by the handlers,
and whether `resolveNetworkPromise` has been invoked. -/
structure FetchSession where
  cacheKey : String
  operation : OperationDescriptor
  promiseResolved : Bool
deriving Repr, DecidableEq

/-- The result of `_fetchAndSaveQuery`: the updated state, the entry read
back at the end (`none` would be the line-514 invariant failure), whether
`fetchObservable.subscribe` was called, and the installed subscription. -/
structure FetchAndSaveResult where
  state : QRState
  entry : Option CacheEntry
  fetchIssued : Bool
  session : Option FetchSession
deriving Repr, DecidableEq

/-- `QueryResourceImpl._fetchAndSaveQuery` (source lines 368-520), with the
result of `environment.check(operation.root)` passed in as `hasFullQuery`.
The `__DEV__` logging has no state effect and is omitted.  Network events
arrive only after this returns (see the module comment), so the
`this._cache.get(cacheKey)` at line 491 sees exactly the entry installed by
`_cacheResult`, if any. -/
def fetchAndSaveQuery (cacheKey : String) (operation : OperationDescriptor)
    (fetchPolicy renderPolicy : String) (hasFullQuery : Bool) (s : QRState) :
    FetchAndSaveResult :=
  let d := fetchDecision fetchPolicy hasFullQuery renderPolicy
  let shouldFetch := d.1
  let shouldAllowRender := d.2
  let s := if shouldAllowRender then cacheResult operation cacheKey s else s
  if shouldFetch then
    let session : FetchSession :=
      { cacheKey := cacheKey, operation := operation, promiseResolved := false }
    let s :=
      match cacheGet s.cache cacheKey with
      | some _ => s
      | none =>
        let e := createQueryResourceCacheEntry cacheKey operation
          EntryValue.pending
        { s with cache := cacheSet s.cache cacheKey e }
    { state := s, entry := cacheGet s.cache cacheKey, fetchIssued := true,
      session := some session }
  else
    { state := s, entry := cacheGet s.cache cacheKey, fetchIssued := false,
      session := none }

/-- The outcome of `prepare`: return a result, throw the pending promise
(suspend), throw the cached error, or fail one of the `invariant` checks. -/
inductive PrepareOutcome
  | ret (r : QueryResult)
  | throwPending
  | throwErr (message : String)
  | invariantFail
deriving Repr, DecidableEq

/-- The result of `prepare`. -/
structure PrepareResult where
  state : QRState
  outcome : PrepareOutcome
  fetchIssued : Bool
  session : Option FetchSession
deriving Repr, DecidableEq

/-- The final `isPromise(cachedValue) || cachedValue instanceof Error`
dispatch of `prepare` (source lines 301-305): throw promises and errors,
return results. -/
def classifyValue : EntryValue → PrepareOutcome
  | .ready r => .ret r
  | .pending => .throwPending
  | .err m => .throwErr m

/-- The `-${cacheKeyBuster}` suffix of the cache key (source lines
273-275). -/
def busterSuffix : Option String → String
  | some b => "-" ++ b
  | none => ""

/-- `QueryResourceImpl.prepare` (source lines 261-306):
default the policies, compute the cache key, reuse the cached entry or run
`_fetchAndSaveQuery`, temporarily retain, then return the ready value or
throw the pending promise / cached error. -/
def prepare (canUseDOM enablePartialDefault : Bool)
    (operation : OperationDescriptor)
    (maybeFetchPolicy maybeRenderPolicy : Option String)
    (cacheKeyBuster : Option String) (hasFullQuery : Bool) (s : QRState) :
    PrepareResult :=
  let fetchPolicy := maybeFetchPolicy.getD DEFAULT_FETCH_POLICY
  let renderPolicy :=
    maybeRenderPolicy.getD (DEFAULT_RENDER_POLICY enablePartialDefault)
  let cacheKey :=
    getQueryCacheKey operation fetchPolicy renderPolicy ++
      busterSuffix cacheKeyBuster
  let step : Option CacheEntry × QRState × Bool × Option FetchSession :=
    match cacheGet s.cache cacheKey with
    | some e => (some e, s, false, none)
    | none =>
      let r := fetchAndSaveQuery cacheKey operation fetchPolicy renderPolicy
        hasFullQuery s
      (r.entry, r.state, r.fetchIssued, r.session)
  match step with
  | (none, s1, fetchIssued, session) =>
    { state := s1, outcome := .invariantFail, fetchIssued := fetchIssued,
      session := session }
  | (some e, s1, fetchIssued, session) =>
    match temporaryRetain canUseDOM e s1 with
    | none =>
      { state := s1, outcome := .invariantFail, fetchIssued := fetchIssued,
        session := session }
    | some (e2, s2) =>
      { state := s2, outcome := classifyValue e2.value,
        fetchIssued := fetchIssued, session := session }

/-- The cache key computed at the start of `prepare` (source lines 270-275),
spelled out for use in theorem statements. -/
def prepareCacheKey (enablePartialDefault : Bool)
    (operation : OperationDescriptor)
    (maybeFetchPolicy maybeRenderPolicy cacheKeyBuster : Option String) :
    String :=
  getQueryCacheKey operation (maybeFetchPolicy.getD DEFAULT_FETCH_POLICY)
      (maybeRenderPolicy.getD (DEFAULT_RENDER_POLICY enablePartialDefault)) ++
    busterSuffix cacheKeyBuster

/-- The events delivered by the fetch observable to the subscription of
`_fetchAndSaveQuery`: a `next` payload (with the missing-data verdict of
`environment.lookup(operation.fragment)` at that moment), a terminal error,
completion, or unsubscription. -/
inductive NetEvent
  | next (isMissingData : Bool)
  | error (message : String)
  | complete
  | unsubscribe
deriving Repr, DecidableEq

/-- The subscription handlers of `_fetchAndSaveQuery` (source lines
441-489), as one transition per event.  `next` with missing data changes
nothing (the external `observer.next` call has no state effect); `next`
with full data and `error` set the entry value (creating the entry if it
was evicted) and resolve the network promise; `complete` only resolves the
promise; `unsubscribe` deletes the cache entry. -/
def netStep (sess : FetchSession) (s : QRState) : NetEvent →
    FetchSession × QRState
  | .next isMissingData =>
    if isMissingData then
      (sess, s)
    else
      let qr := getQueryResult sess.operation sess.cacheKey
      let e := (cacheGet s.cache sess.cacheKey).getD
        (createQueryResourceCacheEntry sess.cacheKey sess.operation
          (EntryValue.ready qr))
      let e := { e with value := EntryValue.ready qr }
      ({ sess with promiseResolved := true },
        { s with cache := cacheSet s.cache sess.cacheKey e })
  | .error m =>
    let e := (cacheGet s.cache sess.cacheKey).getD
      (createQueryResourceCacheEntry sess.cacheKey sess.operation
        (EntryValue.err m))
    let e := { e with value := EntryValue.err m }
    ({ sess with promiseResolved := true },
      { s with cache := cacheSet s.cache sess.cacheKey e })
  | .complete =>
    ({ sess with promiseResolved := true }, s)
  | .unsubscribe =>
    (sess, { s with cache := cacheDelete s.cache sess.cacheKey })

/-! ### Retain-token traces

Claim C8 talks about sequences of retains and disposals of individual
tokens.  The source's retain closure (lines 110-130) shares one
`retainCount` between all tokens of an entry and a `dispose` call carries
no token identity, so the trace semantics below ignores the token argument
of `dispose`; the token numbers only serve to say, purely syntactically,
which disposals are matched by a prior retain. -/

/-- One operation on an entry's retain machinery: acquire a token (tokens
are numbered in order of creation) or call `dispose` on a token. -/
inductive RetainOp
  | retain
  | dispose (tok : Nat)
deriving Repr, DecidableEq

/-- The entry-local state threaded through a retain trace. -/
structure RetainTraceState where
  entry : CacheEntry
  storeRetains : List String
  issued : Nat
deriving Repr, DecidableEq

/-- Run a retain trace against the source's closure semantics.  `none`
means some disposal hit the `invariant` at source lines 119-123 (a loud
assertion failure); disposal ignores which token is being disposed, as the
closure does. -/
def runRetainTrace (ts : RetainTraceState) : List RetainOp →
    Option RetainTraceState
  | [] => some ts
  | .retain :: ops =>
    let (e, r) := entryRetain ts.entry ts.storeRetains
    runRetainTrace { entry := e, storeRetains := r, issued := ts.issued + 1 } ops
  | .dispose _ :: ops =>
    match entryTokenDisposeInner ts.entry ts.storeRetains with
    | none => none
    | some (e, r) =>
      runRetainTrace { ts with entry := e, storeRetains := r } ops

/-- Syntactic bookkeeping for C8: does the trace contain a disposal with no
matching prior retain, i.e. a disposal of a token never issued or already
disposed earlier (double dispose)? -/
def hasUnmatchedDisposal : Nat → List Nat → List RetainOp → Bool
  | _, _, [] => false
  | issued, disposed, .retain :: ops =>
    hasUnmatchedDisposal (issued + 1) disposed ops
  | issued, disposed, .dispose t :: ops =>
    if issued ≤ t || disposed.contains t then true
    else hasUnmatchedDisposal issued (t :: disposed) ops

/-- Well-formedness of an entry's retain machinery, true of every state
reachable from a fresh entry: the count is non-negative and the store
disposable is held exactly while the count is positive. -/
def entryWf (e : CacheEntry) : Prop :=
  0 ≤ e.retainCount ∧ e.retainDisposable = decide (1 ≤ e.retainCount)

instance (e : CacheEntry) : Decidable (entryWf e) := by
  unfold entryWf; infer_instance

/-- A sample operation for concrete instances. -/
def sampleOp : OperationDescriptor :=
  { identifier := "q", rootId := "root", fragmentName := "F",
    fragmentDataID := "d" }

/-- The state of a freshly constructed `QueryResourceImpl`: empty cache, no
store retains. -/
def emptyQRState : QRState := { cache := [], storeRetains := [] }

end Relay

namespace Pagination

/-!
### Pagination coordinator

The pagination coordinator (`useBlockingPaginationFragment` /
`useLoadMoreFunction`) is code of this repository whose implementation is
not among the provided sources; only its test file
(`src/packages/relay-experimental/__tests__/useBlockingPaginationFragment-test.js`)
is.  The definitions of this namespace are therefore modelled from the
spec's §4.4 and checked against the concrete expectations of that test
file. -/

/-- A variable value of a pagination request (the test's variables use
strings, integers, booleans, nulls and a string list). -/
inductive Value
  | vstr (s : String)
  | vint (n : Int)
  | vbool (b : Bool)
  | vnull
  | vlist (l : List String)
deriving Repr, DecidableEq

/-- Operation variables: an association list from variable name to value. -/
abbrev Variables := List (String × Value)

/-- Override one variable, keeping the position of an existing binding and
appending otherwise. -/
def setVar : Variables → String → Value → Variables
  | [], k, v => [(k, v)]
  | (k1, v1) :: rest, k, v =>
    if k1 == k then (k, v) :: rest else (k1, v1) :: setVar rest k v

/-- Connection page-info as stored on the owner record. -/
structure PageInfo where
  startCursor : Option String
  endCursor : Option String
  hasNextPage : Bool
  hasPreviousPage : Bool
deriving Repr, DecidableEq

/-- The connection state read from the current snapshot: the edge list
(`none` when the field is missing or null) as (cursor, node id) pairs, plus
the page-info. -/
structure ConnectionSnapshot where
  edges : Option (List (String × String))
  pageInfo : PageInfo
deriving Repr, DecidableEq

/-- Pagination direction. -/
inductive Direction
  | forward
  | backward
deriving Repr, DecidableEq

/-- Modelled from the spec: the `hasNext`/`hasPrevious` derivation (§4.4
last bullet) — true iff the edges are present, the corresponding page-info
cursor is present, and the corresponding boolean flag is truthy. -/
def hasMore (dir : Direction) (conn : ConnectionSnapshot) : Bool :=
  match dir with
  | .forward =>
    conn.edges.isSome && conn.pageInfo.endCursor.isSome &&
      conn.pageInfo.hasNextPage
  | .backward =>
    conn.edges.isSome && conn.pageInfo.startCursor.isSome &&
      conn.pageInfo.hasPreviousPage

/-- The per-consumer state kept by the coordinator (§4.4): mounted flag,
the fragment reference resolving to the identifier of the record owning
the connection field (`none` when the reference is null), and the
in-flight flags per direction. -/
structure ConsumerState where
  mounted : Bool
  fragmentRef : Option String
  isLoadingNext : Bool
  isLoadingPrevious : Bool
deriving Repr, DecidableEq

/-- A pagination fetch request: the root node identifier the query is
issued against, and its variables.  The test realizes the root node
identifier as the refetch query's `id` variable (pagination variables
carry `id: '1'`, the connection owner, not the base query's
`<feedbackid>`); the model records it both as the request root and as the
`id` variable. -/
structure PaginationRequest where
  rootId : String
  vars : Variables
deriving Repr, DecidableEq

/-- The outcome of a `loadMore` call: a benign no-op (warn, do not throw)
or an issued fetch. -/
inductive LoadMoreResult
  | noop
  | fetch (req : PaginationRequest)
deriving Repr, DecidableEq

/-- Modelled from the spec: `loadMore(direction, count)` (§4.4 steps 1-3).
No-op when unmounted, when the fragment reference is null, when a request
in the same direction is in flight, or when no more pages exist in that
direction.  Otherwise the pagination variables are the base operation's
variables with the cursor argument (`after` for forward, `before` for
backward) overridden by the page-info's end/start cursor, the page-size
argument (`first`/`last`) set to the requested count, and the root node
identifier (the `id` variable) set to the connection owner's identifier. -/
def loadMore (dir : Direction) (count : Int) (c : ConsumerState)
    (baseVars : Variables) (conn : ConnectionSnapshot) : LoadMoreResult :=
  if !c.mounted then .noop
  else
    match c.fragmentRef with
    | none => .noop
    | some ownerId =>
      let inFlight :=
        match dir with
        | .forward => c.isLoadingNext
        | .backward => c.isLoadingPrevious
      if inFlight then .noop
      else if !(hasMore dir conn) then .noop
      else
        let cursorArg := match dir with | .forward => "after" | .backward => "before"
        let cursor := match dir with
          | .forward => conn.pageInfo.endCursor
          | .backward => conn.pageInfo.startCursor
        let sizeArg := match dir with | .forward => "first" | .backward => "last"
        let cursorVal := match cursor with
          | some cur => Value.vstr cur
          | none => Value.vnull
        let vars := setVar (setVar (setVar baseVars cursorArg cursorVal)
          sizeArg (Value.vint count)) "id" (Value.vstr ownerId)
        .fetch { rootId := ownerId, vars := vars }

/-- How a pagination fetch terminates: a successful page or an error. -/
inductive FetchOutcome
  | success (newEdges : List (String × String)) (newPageInfo : PageInfo)
  | failure (message : String)
deriving Repr, DecidableEq

/-- The result of handling a terminated pagination fetch: the new
connection state and the list of `onComplete` invocations performed
(`none` argument = completed without error). -/
structure CompleteResult where
  conn : ConnectionSnapshot
  onCompleteCalls : List (Option String)
deriving Repr, DecidableEq

/-- Modelled from the spec: handling a terminated pagination fetch (§4.4
steps 4-5).  On success the new edges are appended (forward) or prepended
(backward) and the page-info flags of the fetch direction are taken from
the new page while the opposite direction's are preserved; `onComplete` is
invoked once with no error.  On error nothing is applied to the connection
and `onComplete` is invoked once with the error; no exception is thrown —
the error branch returns normally like the success branch. -/
def completeFetch (dir : Direction) (outcome : FetchOutcome)
    (conn : ConnectionSnapshot) : CompleteResult :=
  match outcome with
  | .failure m => { conn := conn, onCompleteCalls := [some m] }
  | .success newEdges newPI =>
    let oldEdges := conn.edges.getD []
    match dir with
    | .forward =>
      { conn :=
          { edges := some (oldEdges ++ newEdges)
            pageInfo :=
              { startCursor := conn.pageInfo.startCursor
                endCursor := newPI.endCursor
                hasNextPage := newPI.hasNextPage
                hasPreviousPage := conn.pageInfo.hasPreviousPage } }
        onCompleteCalls := [none] }
    | .backward =>
      { conn :=
          { edges := some (newEdges ++ oldEdges)
            pageInfo :=
              { startCursor := newPI.startCursor
                endCursor := conn.pageInfo.endCursor
                hasNextPage := conn.pageInfo.hasNextPage
                hasPreviousPage := newPI.hasPreviousPage } }
        onCompleteCalls := [none] }

end Pagination

/-! ## Helper lemmas -/

namespace Relay

lemma lookup_cons (k k1 : String) (e1 : CacheEntry) (rest : CacheMap) :
    List.lookup k ((k1, e1) :: rest) =
      if k = k1 then some e1 else List.lookup k rest := by
  by_cases h : k = k1
  · rw [if_pos h]
    have hb : (k == k1) = true := beq_iff_eq.mpr h
    simp [List.lookup, hb]
  · rw [if_neg h]
    have hb : (k == k1) = false := beq_eq_false_iff_ne.mpr h
    simp [List.lookup, hb]

lemma cacheGet_cacheSet_self (c : CacheMap) (k : String) (e : CacheEntry) :
    cacheGet (cacheSet c k e) k = some e := by
  simp [cacheGet, cacheSet, CACHE_CAPACITY, List.take, lookup_cons]

lemma cacheGet_cacheDelete_self (c : CacheMap) (k : String) :
    cacheGet (cacheDelete c k) k = none := by
  induction c with
  | nil => rfl
  | cons p rest ih =>
    obtain ⟨k1, e1⟩ := p
    by_cases h : k1 = k
    · have hb : (k1 != k) = false := by simp [bne, beq_iff_eq.mpr h]
      simpa [cacheGet, cacheDelete, List.filter, hb] using ih
    · have hb : (k1 != k) = true := by
        simp [bne, beq_eq_false_iff_ne.mpr h]
      simpa [cacheGet, cacheDelete, List.filter, hb, lookup_cons,
        Ne.symm h] using ih

lemma cacheGet_cacheUpdate_self (c : CacheMap) (k : String)
    (e v : CacheEntry) (h : cacheGet c k = some e) :
    cacheGet (cacheUpdate c k v) k = some v := by
  induction c with
  | nil => simp [cacheGet, List.lookup] at h
  | cons p rest ih =>
    obtain ⟨k1, e1⟩ := p
    by_cases hk : k1 = k
    · subst hk
      simp [cacheGet, cacheUpdate, lookup_cons]
    · have h1 : cacheGet rest k = some e := by
        simpa [cacheGet, lookup_cons, Ne.symm hk] using h
      simpa [cacheGet, cacheUpdate, hk, lookup_cons, Ne.symm hk]
        using ih h1

lemma cacheGet_cacheUpdate_of_none (c : CacheMap) (k : String)
    (v : CacheEntry) (h : cacheGet c k = none) :
    cacheGet (cacheUpdate c k v) k = none := by
  induction c with
  | nil => rfl
  | cons p rest ih =>
    obtain ⟨k1, e1⟩ := p
    by_cases hk : k1 = k
    · subst hk
      simp [cacheGet, lookup_cons] at h
    · have h1 : cacheGet rest k = none := by
        simpa [cacheGet, lookup_cons, Ne.symm hk] using h
      simpa [cacheGet, cacheUpdate, hk, lookup_cons, Ne.symm hk]
        using ih h1

lemma temporaryRetain_spec (canUseDOM : Bool) (e : CacheEntry) (s : QRState)
    (hc : 0 ≤ e.retainCount)
    (ht : e.tempRetainActive = true → 1 ≤ e.retainCount) :
    ∃ e2 s2, temporaryRetain canUseDOM e s = some (e2, s2) ∧
      e2.value = e.value ∧ e2.cacheKey = e.cacheKey ∧
      e2.operation = e.operation ∧
      e2.permanentlyRetained = e.permanentlyRetained ∧
      0 ≤ e2.retainCount ∧
      (e2.tempRetainActive = true → 1 ≤ e2.retainCount) ∧
      (cacheGet s.cache e.cacheKey = some e →
        cacheGet s2.cache e.cacheKey = some e2) := by
  cases canUseDOM with
  | false =>
    exact ⟨e, s, by simp [temporaryRetain], rfl, rfl, rfl, rfl, hc, ht,
      fun h => h⟩
  | true =>
    cases hperm : e.permanentlyRetained with
    | true =>
      refine ⟨e, s, by simp [temporaryRetain, hperm], rfl, rfl, rfl, ?_,
        hc, ht, fun h => h⟩
      exact hperm
    | false =>
      by_cases h0 : e.retainCount + 1 = 1
      · have htemp : e.tempRetainActive = false := by
          cases hta : e.tempRetainActive
          · rfl
          · exact absurd (ht hta) (by omega)
        have heq : temporaryRetain true e s = some
            ({ e with
                retainCount := e.retainCount + 1
                retainDisposable := true
                tempRetainActive := true },
              { cache := cacheUpdate
                  (cacheUpdate s.cache e.cacheKey
                    { e with
                        retainCount := e.retainCount + 1
                        retainDisposable := true })
                  e.cacheKey
                  { e with
                      retainCount := e.retainCount + 1
                      retainDisposable := true
                      tempRetainActive := true }
                storeRetains := e.operation.rootId :: s.storeRetains }) := by
          simp only [temporaryRetain, Bool.not_true, Bool.false_eq_true,
            if_false, hperm, entryRetain, if_pos h0, htemp]
        refine ⟨_, _, heq, rfl, rfl, rfl, ?_, ?_, ?_, fun h => ?_⟩
        · exact hperm
        · simp; omega
        · intro _; simp; omega
        · exact cacheGet_cacheUpdate_self _ _ _ _
            (cacheGet_cacheUpdate_self _ _ _ _ h)
      · have h1 : 1 ≤ e.retainCount := by omega
        cases hta : e.tempRetainActive with
        | false =>
          have heq : temporaryRetain true e s = some
              ({ e with
                  retainCount := e.retainCount + 1
                  tempRetainActive := true },
                { cache := cacheUpdate
                    (cacheUpdate s.cache e.cacheKey
                      { e with retainCount := e.retainCount + 1 })
                    e.cacheKey
                    { e with
                        retainCount := e.retainCount + 1
                        tempRetainActive := true }
                  storeRetains := s.storeRetains }) := by
            simp only [temporaryRetain, Bool.not_true, Bool.false_eq_true,
              if_false, hperm, entryRetain, if_neg h0, hta]
          refine ⟨_, _, heq, rfl, rfl, rfl, ?_, ?_, ?_, fun h => ?_⟩
          · exact hperm
          · simp; omega
          · intro _; simp; omega
          · exact cacheGet_cacheUpdate_self _ _ _ _
              (cacheGet_cacheUpdate_self _ _ _ _ h)
        | true =>
          have hmax : ¬ max 0 (e.retainCount + 1 - 1) = 0 := by omega
          have heq : temporaryRetain true e s = some
              ({ e with
                  retainCount := max 0 (e.retainCount + 1 - 1)
                  tempRetainActive := true },
                { cache := cacheUpdate
                    (cacheUpdate
                      (cacheUpdate s.cache e.cacheKey
                        { e with retainCount := e.retainCount + 1 })
                      e.cacheKey
                      { e with
                          retainCount := max 0 (e.retainCount + 1 - 1) })
                    e.cacheKey
                    { e with
                        retainCount := max 0 (e.retainCount + 1 - 1)
                        tempRetainActive := true }
                  storeRetains := s.storeRetains }) := by
            simp only [temporaryRetain, Bool.not_true, Bool.false_eq_true,
              if_false, hperm, entryRetain, if_neg h0, hta, if_true,
              entryTokenDispose, entryTokenDisposeInner, if_neg hmax,
              onDisposeEntry]
            rw [if_neg (show ¬ max 0 (e.retainCount + 1 - 1) ≤ 0 by omega)]
          refine ⟨_, _, heq, rfl, rfl, rfl, ?_, ?_, ?_, fun h => ?_⟩
          · exact hperm
          · simp
          · intro _; simp; omega
          · exact cacheGet_cacheUpdate_self _ _ _ _
              (cacheGet_cacheUpdate_self _ _ _ _
                (cacheGet_cacheUpdate_self _ _ _ _ h))

lemma prepare_hit (canUseDOM epd : Bool) (op : OperationDescriptor)
    (mfp mrp buster : Option String) (full : Bool) (s : QRState)
    (e : CacheEntry)
    (hget : cacheGet s.cache (prepareCacheKey epd op mfp mrp buster) = some e)
    (hk : e.cacheKey = prepareCacheKey epd op mfp mrp buster)
    (hc : 0 ≤ e.retainCount)
    (ht : e.tempRetainActive = true → 1 ≤ e.retainCount) :
    (prepare canUseDOM epd op mfp mrp buster full s).outcome =
      classifyValue e.value ∧
    (prepare canUseDOM epd op mfp mrp buster full s).fetchIssued = false ∧
    (prepare canUseDOM epd op mfp mrp buster full s).session = none ∧
    ∃ e2, cacheGet (prepare canUseDOM epd op mfp mrp buster full s).state.cache
        (prepareCacheKey epd op mfp mrp buster) = some e2 ∧
      e2.value = e.value ∧
      e2.cacheKey = prepareCacheKey epd op mfp mrp buster ∧
      e2.operation = e.operation ∧
      e2.permanentlyRetained = e.permanentlyRetained ∧
      0 ≤ e2.retainCount ∧
      (e2.tempRetainActive = true → 1 ≤ e2.retainCount) := by
  obtain ⟨e2, s2, heq, hval, hkey, hop, hpm, hc2, ht2, hpres⟩ :=
    temporaryRetain_spec canUseDOM e s hc ht
  have hget' : cacheGet s.cache e.cacheKey = some e := by rw [hk]; exact hget
  have hp : prepare canUseDOM epd op mfp mrp buster full s =
      { state := s2, outcome := classifyValue e2.value, fetchIssued := false,
        session := none } := by
    simp only [prepare, prepareCacheKey, getQueryCacheKey, busterSuffix,
      DEFAULT_FETCH_POLICY, DEFAULT_RENDER_POLICY] at hget ⊢
    rw [hget]
    simp only [heq]
  rw [hp]
  refine ⟨by rw [hval], rfl, rfl, e2, ?_, hval, ?_, hop, hpm, hc2, ht2⟩
  · have := hpres hget'
    rwa [hk] at this
  · rw [hkey, hk]

lemma fetchDecision_total (fp : String) (full : Bool) (rp : String) :
    (fetchDecision fp full rp).1 = true ∨
      (fetchDecision fp full rp).2 = true := by
  unfold fetchDecision
  split_ifs <;> cases full <;> simp

lemma fetchAndSaveQuery_spec (key : String) (op : OperationDescriptor)
    (fp rp : String) (full : Bool) (s : QRState)
    (hmiss : cacheGet s.cache key = none) :
    fetchAndSaveQuery key op fp rp full s =
      { state := { s with
          cache := cacheSet s.cache key
                     (createQueryResourceCacheEntry key op
                       (if (fetchDecision fp full rp).2 then
                         EntryValue.ready (getQueryResult op key)
                       else EntryValue.pending)) }
        entry := some (createQueryResourceCacheEntry key op
                  (if (fetchDecision fp full rp).2 then
                    EntryValue.ready (getQueryResult op key)
                  else EntryValue.pending))
        fetchIssued := (fetchDecision fp full rp).1
        session := if (fetchDecision fp full rp).1 then
                     some { cacheKey := key, operation := op,
                            promiseResolved := false }
                   else none } := by
  rcases hd : fetchDecision fp full rp with ⟨d1, d2⟩
  cases d2 with
  | true =>
    cases d1 with
    | true =>
      simp only [fetchAndSaveQuery, hd, cacheResult, if_true]
      simp only [cacheGet_cacheSet_self]
    | false =>
      simp only [fetchAndSaveQuery, hd, cacheResult, if_true,
        Bool.false_eq_true, if_false]
      simp only [cacheGet_cacheSet_self]
  | false =>
    cases d1 with
    | true =>
      simp only [fetchAndSaveQuery, hd, Bool.false_eq_true, if_false,
        if_true, hmiss]
      simp only [cacheGet_cacheSet_self]
    | false =>
      rcases fetchDecision_total fp full rp with h | h <;>
        rw [hd] at h <;> simp at h

lemma prepare_miss_spec (canUseDOM epd : Bool) (op : OperationDescriptor)
    (fp rp : String) (buster : Option String) (full : Bool) (s : QRState)
    (hmiss : cacheGet s.cache
      (prepareCacheKey epd op (some fp) (some rp) buster) = none) :
    (prepare canUseDOM epd op (some fp) (some rp) buster full s).outcome =
      (if (fetchDecision fp full rp).2 then
        PrepareOutcome.ret (getQueryResult op
          (prepareCacheKey epd op (some fp) (some rp) buster))
      else PrepareOutcome.throwPending) ∧
    (prepare canUseDOM epd op (some fp) (some rp) buster full s).fetchIssued =
      (fetchDecision fp full rp).1 ∧
    (prepare canUseDOM epd op (some fp) (some rp) buster full s).session =
      (if (fetchDecision fp full rp).1 then
        some { cacheKey := prepareCacheKey epd op (some fp) (some rp) buster,
               operation := op, promiseResolved := false }
      else none) ∧
    ∃ e2, cacheGet
        (prepare canUseDOM epd op (some fp) (some rp) buster full s).state.cache
        (prepareCacheKey epd op (some fp) (some rp) buster) = some e2 ∧
      e2.value = (if (fetchDecision fp full rp).2 then
        EntryValue.ready (getQueryResult op
          (prepareCacheKey epd op (some fp) (some rp) buster))
      else EntryValue.pending) ∧
      e2.cacheKey = prepareCacheKey epd op (some fp) (some rp) buster ∧
      e2.operation = op ∧
      e2.permanentlyRetained = false ∧
      0 ≤ e2.retainCount ∧
      (e2.tempRetainActive = true → 1 ≤ e2.retainCount) := by
  have hf := fetchAndSaveQuery_spec
    (prepareCacheKey epd op (some fp) (some rp) buster) op fp rp full s hmiss
  obtain ⟨e2, s2, heq, hval, hkey, hop, hpm, hc2, ht2, hpres⟩ :=
    temporaryRetain_spec canUseDOM
      (createQueryResourceCacheEntry
        (prepareCacheKey epd op (some fp) (some rp) buster) op
        (if (fetchDecision fp full rp).2 then
          EntryValue.ready (getQueryResult op
            (prepareCacheKey epd op (some fp) (some rp) buster))
        else EntryValue.pending))
      { s with
          cache := cacheSet s.cache
                     (prepareCacheKey epd op (some fp) (some rp) buster)
                     (createQueryResourceCacheEntry
                       (prepareCacheKey epd op (some fp) (some rp) buster) op
                       (if (fetchDecision fp full rp).2 then
                         EntryValue.ready (getQueryResult op
                           (prepareCacheKey epd op (some fp) (some rp) buster))
                       else EntryValue.pending)) }
      (by simp [createQueryResourceCacheEntry])
      (by simp [createQueryResourceCacheEntry])
  have hp : prepare canUseDOM epd op (some fp) (some rp) buster full s =
      { state := s2, outcome := classifyValue e2.value,
        fetchIssued := (fetchDecision fp full rp).1,
        session := if (fetchDecision fp full rp).1 then
            some { cacheKey := prepareCacheKey epd op (some fp) (some rp) buster,
                   operation := op, promiseResolved := false }
          else none } := by
    have hfold : getQueryCacheKey op fp rp ++ busterSuffix buster =
        prepareCacheKey epd op (some fp) (some rp) buster := rfl
    simp only [prepare, Option.getD_some]
    rw [hfold, hmiss]
    simp only [hf]
    simp only [heq]
  rw [hp]
  have hval' : e2.value = (if (fetchDecision fp full rp).2 then
      EntryValue.ready (getQueryResult op
        (prepareCacheKey epd op (some fp) (some rp) buster))
      else EntryValue.pending) := by
    rw [hval]
    exact rfl
  refine ⟨?_, rfl, rfl, e2, ?_, hval', hkey, hop, hpm, hc2, ht2⟩
  · rw [hval']
    cases hd2 : (fetchDecision fp full rp).2 <;> simp [classifyValue]
  · exact hpres (cacheGet_cacheSet_self _ _ _)

lemma fetchDecision_store_only (full : Bool) (rp : String) :
    fetchDecision "store-only" full rp = (false, true) := rfl

lemma fetchDecision_store_or_network (full : Bool) (rp : String) :
    fetchDecision "store-or-network" full rp =
      (!full, full || rp == "partial") := rfl

lemma fetchDecision_store_and_network (full : Bool) (rp : String) :
    fetchDecision "store-and-network" full rp =
      (true, full || rp == "partial") := rfl

lemma fetchDecision_network_only (full : Bool) (rp : String) :
    fetchDecision "network-only" full rp = (true, false) := rfl

/-! ## Claim theorems -/

/-- C1: on a cache miss, `prepare` issues a network fetch solely according
to the fetch policy and the fullness reported by `check` on the operation
root (`store-only` never, `store-or-network` iff not full,
`store-and-network` and `network-only` always), and rendering may proceed
before the fetch completes (a ready result is returned rather than a
pending promise thrown) for `store-only` always, for `network-only` never,
and for `store-or-network`/`store-and-network` iff the data is full or the
render policy is `partial`. -/
theorem c1_fetch_policy_table (canUseDOM epd : Bool)
    (op : OperationDescriptor) (rp : String) (buster : Option String)
    (full : Bool) (s : QRState) :
    (cacheGet s.cache
        (prepareCacheKey epd op (some "store-only") (some rp) buster) =
        none →
      (prepare canUseDOM epd op (some "store-only") (some rp) buster full
          s).fetchIssued = false ∧
      (prepare canUseDOM epd op (some "store-only") (some rp) buster full
          s).outcome = PrepareOutcome.ret (getQueryResult op
            (prepareCacheKey epd op (some "store-only") (some rp) buster))) ∧
    (cacheGet s.cache
        (prepareCacheKey epd op (some "store-or-network") (some rp) buster) =
        none →
      (prepare canUseDOM epd op (some "store-or-network") (some rp) buster
          full s).fetchIssued = !full ∧
      (prepare canUseDOM epd op (some "store-or-network") (some rp) buster
          full s).outcome =
        (if full || rp == "partial" then
          PrepareOutcome.ret (getQueryResult op
            (prepareCacheKey epd op (some "store-or-network") (some rp)
              buster))
        else PrepareOutcome.throwPending)) ∧
    (cacheGet s.cache
        (prepareCacheKey epd op (some "store-and-network") (some rp)
          buster) = none →
      (prepare canUseDOM epd op (some "store-and-network") (some rp) buster
          full s).fetchIssued = true ∧
      (prepare canUseDOM epd op (some "store-and-network") (some rp) buster
          full s).outcome =
        (if full || rp == "partial" then
          PrepareOutcome.ret (getQueryResult op
            (prepareCacheKey epd op (some "store-and-network") (some rp)
              buster))
        else PrepareOutcome.throwPending)) ∧
    (cacheGet s.cache
        (prepareCacheKey epd op (some "network-only") (some rp) buster) =
        none →
      (prepare canUseDOM epd op (some "network-only") (some rp) buster full
          s).fetchIssued = true ∧
      (prepare canUseDOM epd op (some "network-only") (some rp) buster full
          s).outcome = PrepareOutcome.throwPending) := by
  refine ⟨fun hmiss => ?_, fun hmiss => ?_, fun hmiss => ?_,
    fun hmiss => ?_⟩
  · obtain ⟨ho, hi, -, -⟩ :=
      prepare_miss_spec canUseDOM epd op "store-only" rp buster full s hmiss
    rw [fetchDecision_store_only] at ho hi
    simp at ho hi
    exact ⟨hi, ho⟩
  · obtain ⟨ho, hi, -, -⟩ :=
      prepare_miss_spec canUseDOM epd op "store-or-network" rp buster full s
        hmiss
    rw [fetchDecision_store_or_network] at ho hi
    exact ⟨hi, ho⟩
  · obtain ⟨ho, hi, -, -⟩ :=
      prepare_miss_spec canUseDOM epd op "store-and-network" rp buster full
        s hmiss
    rw [fetchDecision_store_and_network] at ho hi
    exact ⟨hi, ho⟩
  · obtain ⟨ho, hi, -, -⟩ :=
      prepare_miss_spec canUseDOM epd op "network-only" rp buster full s
        hmiss
    rw [fetchDecision_network_only] at ho hi
    simp at ho hi
    exact ⟨hi, ho⟩

/-- Witness for C1 at a concrete input: empty cache, data not full, render
policy `full`. -/
theorem c1_fetch_policy_table_witness :
    (prepare true false sampleOp (some "store-only") (some "full") none
        false emptyQRState).fetchIssued = false ∧
    (prepare true false sampleOp (some "store-or-network") (some "full")
        none false emptyQRState).fetchIssued = true ∧
    (prepare true false sampleOp (some "store-or-network") (some "full")
        none false emptyQRState).outcome = PrepareOutcome.throwPending ∧
    (prepare true false sampleOp (some "network-only") (some "full") none
        false emptyQRState).outcome = PrepareOutcome.throwPending := by
  obtain ⟨h1, h2, h3, h4⟩ :=
    c1_fetch_policy_table true false sampleOp "full" none false emptyQRState
  refine ⟨(h1 (by rfl)).1, ?_, ?_, (h4 (by rfl)).2⟩
  · rw [(h2 (by rfl)).1]; rfl
  · rw [(h2 (by rfl)).2]; rfl

/-- C2: (a) when `prepare` finds a cache entry whose current value is a
pending promise or an error it throws that value and never returns a
result; (b) `prepare` with fetch policy `store-or-network` on a
fully-cached operation (a cache miss with `check` reporting full data)
returns a ready result synchronously without throwing or fetching; (c) on
missing data it throws a pending promise and, after the network delivers a
snapshot with no missing data, a retried `prepare` for the same key
returns the ready result. -/
theorem c2_prepare_throw_return (canUseDOM epd : Bool)
    (op : OperationDescriptor) (mfp mrp buster : Option String)
    (full : Bool) (s : QRState) :
    (∀ e, cacheGet s.cache (prepareCacheKey epd op mfp mrp buster) =
        some e →
      e.cacheKey = prepareCacheKey epd op mfp mrp buster →
      0 ≤ e.retainCount →
      (e.tempRetainActive = true → 1 ≤ e.retainCount) →
      (e.value = EntryValue.pending →
        (prepare canUseDOM epd op mfp mrp buster full s).outcome =
          PrepareOutcome.throwPending) ∧
      (∀ m, e.value = EntryValue.err m →
        (prepare canUseDOM epd op mfp mrp buster full s).outcome =
          PrepareOutcome.throwErr m) ∧
      (∀ r, (prepare canUseDOM epd op mfp mrp buster full s).outcome =
          PrepareOutcome.ret r → e.value = EntryValue.ready r)) ∧
    (cacheGet s.cache
        (prepareCacheKey epd op (some "store-or-network") mrp buster) =
        none →
      (prepare canUseDOM epd op (some "store-or-network") mrp buster true
          s).outcome = PrepareOutcome.ret (getQueryResult op
            (prepareCacheKey epd op (some "store-or-network") mrp buster)) ∧
      (prepare canUseDOM epd op (some "store-or-network") mrp buster true
          s).fetchIssued = false) ∧
    (cacheGet s.cache
        (prepareCacheKey epd op (some "store-or-network") (some "full")
          buster) = none →
      (prepare canUseDOM epd op (some "store-or-network") (some "full")
          buster false s).outcome = PrepareOutcome.throwPending ∧
      (prepare canUseDOM epd op (some "store-or-network") (some "full")
          buster false s).fetchIssued = true ∧
      ∃ sess, (prepare canUseDOM epd op (some "store-or-network")
          (some "full") buster false s).session = some sess ∧
        ∀ full2, (prepare canUseDOM epd op (some "store-or-network")
            (some "full") buster full2
            (netStep sess (prepare canUseDOM epd op (some "store-or-network")
              (some "full") buster false s).state (NetEvent.next false)).2
            ).outcome = PrepareOutcome.ret (getQueryResult op
              (prepareCacheKey epd op (some "store-or-network") (some "full")
                buster)) ∧
          (prepare canUseDOM epd op (some "store-or-network") (some "full")
            buster full2
            (netStep sess (prepare canUseDOM epd op (some "store-or-network")
              (some "full") buster false s).state (NetEvent.next false)).2
            ).fetchIssued = false) := by
  refine ⟨fun e hget hk hc ht => ?_, fun hmiss => ?_, fun hmiss => ?_⟩
  · obtain ⟨ho, -, -, -⟩ :=
      prepare_hit canUseDOM epd op mfp mrp buster full s e hget hk hc ht
    refine ⟨fun hv => ?_, fun m hv => ?_, fun r hr => ?_⟩
    · rw [ho, hv]; rfl
    · rw [ho, hv]; rfl
    · rw [ho] at hr
      cases hv : e.value <;> rw [hv] at hr <;>
        simp [classifyValue] at hr
      rw [hr]
  · obtain ⟨ho, hi, -, -⟩ :=
      prepare_miss_spec canUseDOM epd op "store-or-network"
        (mrp.getD (DEFAULT_RENDER_POLICY epd)) buster true s
        (by
          have : prepareCacheKey epd op (some "store-or-network")
              (some (mrp.getD (DEFAULT_RENDER_POLICY epd))) buster =
              prepareCacheKey epd op (some "store-or-network") mrp buster := by
            cases mrp <;> rfl
          rw [this]; exact hmiss)
    have hkeq : prepareCacheKey epd op (some "store-or-network")
        (some (mrp.getD (DEFAULT_RENDER_POLICY epd))) buster =
        prepareCacheKey epd op (some "store-or-network") mrp buster := by
      cases mrp <;> rfl
    have hpeq : prepare canUseDOM epd op (some "store-or-network")
        (some (mrp.getD (DEFAULT_RENDER_POLICY epd))) buster true s =
        prepare canUseDOM epd op (some "store-or-network") mrp buster true
          s := by
      cases mrp <;> rfl
    rw [fetchDecision_store_or_network] at ho hi
    simp only [Bool.true_or, if_true, Bool.not_true] at ho hi
    rw [hpeq, hkeq] at ho
    rw [hpeq] at hi
    exact ⟨ho, hi⟩
  · obtain ⟨ho, hi, hsess, e2, hget2, hval2, hkey2, hop2, hpm2, hc2, ht2⟩ :=
      prepare_miss_spec canUseDOM epd op "store-or-network" "full" buster
        false s hmiss
    rw [fetchDecision_store_or_network] at ho hi hsess hval2
    simp only [Bool.false_or, Bool.not_false, if_true] at hi hsess
    have hifneg : (false || ("full" == "partial")) = false := rfl
    rw [hifneg] at ho hval2
    simp only [Bool.false_eq_true, if_false] at ho hval2
    refine ⟨ho, hi, _, hsess, fun full2 => ?_⟩
    have hstep : (netStep
        { cacheKey := prepareCacheKey epd op (some "store-or-network")
            (some "full") buster, operation := op, promiseResolved := false }
        (prepare canUseDOM epd op (some "store-or-network") (some "full")
          buster false s).state (NetEvent.next false)).2 =
        { (prepare canUseDOM epd op (some "store-or-network") (some "full")
            buster false s).state with
          cache := cacheSet (prepare canUseDOM epd op
              (some "store-or-network") (some "full") buster false
              s).state.cache
            (prepareCacheKey epd op (some "store-or-network") (some "full")
              buster)
            { e2 with
                value := EntryValue.ready (getQueryResult op
                  (prepareCacheKey epd op (some "store-or-network")
                    (some "full") buster)) } } := by
      simp only [netStep, Bool.false_eq_true, if_false, hget2,
        Option.getD_some]
    rw [hstep]
    obtain ⟨ho3, hi3, -, -⟩ :=
      prepare_hit canUseDOM epd op (some "store-or-network") (some "full")
        buster full2
        { (prepare canUseDOM epd op (some "store-or-network") (some "full")
            buster false s).state with
          cache := cacheSet (prepare canUseDOM epd op
              (some "store-or-network") (some "full") buster false
              s).state.cache
            (prepareCacheKey epd op (some "store-or-network") (some "full")
              buster)
            { e2 with
                value := EntryValue.ready (getQueryResult op
                  (prepareCacheKey epd op (some "store-or-network")
                    (some "full") buster)) } }
        { e2 with
            value := EntryValue.ready (getQueryResult op
              (prepareCacheKey epd op (some "store-or-network") (some "full")
                buster)) }
        (cacheGet_cacheSet_self _ _ _) hkey2 hc2 ht2
    rw [ho3]
    exact ⟨rfl, hi3⟩

/-- Witness for C2 at concrete inputs: an error entry in the cache is
thrown; a full store returns synchronously; a miss suspends and a retried
`prepare` after the network resolves returns the ready result. -/
theorem c2_prepare_throw_return_witness :
    (prepare true false sampleOp (some "store-or-network") (some "full")
        none false
        { cache := [("store-or-network-full-q",
            createQueryResourceCacheEntry "store-or-network-full-q" sampleOp
              (EntryValue.err "boom"))], storeRetains := [] }).outcome =
      PrepareOutcome.throwErr "boom" ∧
    (prepare true false sampleOp (some "store-or-network") (some "full")
        none true emptyQRState).outcome =
      PrepareOutcome.ret (getQueryResult sampleOp
        "store-or-network-full-q") ∧
    (prepare true false sampleOp (some "store-or-network") (some "full")
        none false
        (netStep
          { cacheKey := "store-or-network-full-q", operation := sampleOp,
            promiseResolved := false }
          (prepare true false sampleOp (some "store-or-network")
            (some "full") none false emptyQRState).state
          (NetEvent.next false)).2).outcome =
      PrepareOutcome.ret (getQueryResult sampleOp
        "store-or-network-full-q") := by
  obtain ⟨ha, hb, hc⟩ := c2_prepare_throw_return true false sampleOp
    (some "store-or-network") (some "full") none false
    { cache := [("store-or-network-full-q",
        createQueryResourceCacheEntry "store-or-network-full-q" sampleOp
          (EntryValue.err "boom"))], storeRetains := [] }
  refine ⟨(ha _ (by rfl) (by rfl) (by decide) (by decide)).2.1 "boom"
    (by rfl), ?_, ?_⟩
  · obtain ⟨-, hb2, -⟩ := c2_prepare_throw_return true false sampleOp
      (some "store-or-network") (some "full") none true emptyQRState
    exact (hb2 (by rfl)).1
  · obtain ⟨-, -, hc3⟩ := c2_prepare_throw_return true false sampleOp
      (some "store-or-network") (some "full") none false emptyQRState
    obtain ⟨h1, h2, sess, h3, h4⟩ := hc3 (by rfl)
    have hconc : (prepare true false sampleOp (some "store-or-network")
        (some "full") none false emptyQRState).session = some
          { cacheKey := "store-or-network-full-q", operation := sampleOp,
            promiseResolved := false } := by decide
    rw [h3] at hconc
    obtain rfl : sess =
        { cacheKey := "store-or-network-full-q",
          operation := sampleOp, promiseResolved := false } := by
      injection hconc
    exact (h4 false).1



/-- C3: while a cache entry holds the pending network promise, a `next`
event whose snapshot still reports missing data changes nothing — the
entry value stays the pending promise and the promise is not resolved (the
transition is the identity); and the entry leaves the pending state (its
cached value becomes a non-promise while still present) only on an error
event or on a `next` event whose snapshot has no missing data. -/
theorem c3_next_missing_no_transition (sess : FetchSession) (s : QRState)
    (e : CacheEntry) (hget : cacheGet s.cache sess.cacheKey = some e)
    (hpend : e.value = EntryValue.pending) :
    netStep sess s (NetEvent.next true) = (sess, s) ∧
    (∀ ev e2, cacheGet (netStep sess s ev).2.cache sess.cacheKey = some e2 →
      e2.value ≠ EntryValue.pending →
      (∃ m, ev = NetEvent.error m) ∨ ev = NetEvent.next false) := by
  refine ⟨rfl, fun ev e2 hget2 hne => ?_⟩
  cases ev with
  | next isMissing =>
    cases isMissing with
    | true =>
      exfalso
      have : (netStep sess s (NetEvent.next true)).2 = s := rfl
      rw [this, hget] at hget2
      obtain rfl : e = e2 := by injection hget2
      exact hne hpend
    | false => exact Or.inr rfl
  | error m => exact Or.inl ⟨m, rfl⟩
  | complete =>
    exfalso
    have : (netStep sess s NetEvent.complete).2 = s := rfl
    rw [this, hget] at hget2
    obtain rfl : e = e2 := by injection hget2
    exact hne hpend
  | unsubscribe =>
    exfalso
    have : (netStep sess s NetEvent.unsubscribe).2.cache =
        cacheDelete s.cache sess.cacheKey := rfl
    rw [this, cacheGet_cacheDelete_self] at hget2
    exact Option.noConfusion hget2

/-- Witness for C3 at a concrete input: a pending entry under key
`"k"`; the missing-data `next` event is the identity, and the error event
is among the allowed transitions out of the pending state. -/
theorem c3_next_missing_no_transition_witness :
    netStep
      { cacheKey := "k", operation := sampleOp, promiseResolved := false }
      { cache := [("k", createQueryResourceCacheEntry "k" sampleOp
          EntryValue.pending)], storeRetains := [] }
      (NetEvent.next true) =
      ({ cacheKey := "k", operation := sampleOp, promiseResolved := false },
        { cache := [("k", createQueryResourceCacheEntry "k" sampleOp
            EntryValue.pending)], storeRetains := [] }) := by
  exact (c3_next_missing_no_transition
    { cacheKey := "k", operation := sampleOp, promiseResolved := false }
    { cache := [("k", createQueryResourceCacheEntry "k" sampleOp
        EntryValue.pending)], storeRetains := [] }
    (createQueryResourceCacheEntry "k" sampleOp EntryValue.pending)
    (by rfl) (by rfl)).1

lemma permanentRetain_spec (e : CacheEntry) (s : QRState)
    (hc : 0 ≤ e.retainCount)
    (ht : e.tempRetainActive = true → 1 ≤ e.retainCount)
    (hd : e.retainDisposable = decide (1 ≤ e.retainCount)) :
    ∃ e2 s2, permanentRetain e s = some (e2, s2) ∧
      e2.retainCount =
        (if e.tempRetainActive then e.retainCount else e.retainCount + 1) ∧
      e2.retainDisposable = true ∧
      e2.tempRetainActive = false ∧
      e2.permanentlyRetained = true ∧
      e2.value = e.value ∧ e2.cacheKey = e.cacheKey ∧
      e2.operation = e.operation ∧
      s2.storeRetains =
        (if e.retainCount = 0 then e.operation.rootId :: s.storeRetains
        else s.storeRetains) ∧
      (cacheGet s.cache e.cacheKey = some e →
        cacheGet s2.cache e.cacheKey = some e2) := by
  by_cases h0 : e.retainCount + 1 = 1
  · have htemp : e.tempRetainActive = false := by
      cases hta : e.tempRetainActive
      · rfl
      · exact absurd (ht hta) (by omega)
    have heq : permanentRetain e s = some
        ({ e with
            retainCount := e.retainCount + 1
            retainDisposable := true
            permanentlyRetained := true },
          { cache := cacheUpdate
              (cacheUpdate s.cache e.cacheKey
                { e with
                    retainCount := e.retainCount + 1
                    retainDisposable := true })
              e.cacheKey
              { e with
                  retainCount := e.retainCount + 1
                  retainDisposable := true
                  permanentlyRetained := true }
            storeRetains := e.operation.rootId :: s.storeRetains }) := by
      simp only [permanentRetain, entryRetain, if_pos h0, htemp,
        Bool.false_eq_true, if_false]
    refine ⟨_, _, heq, by simp [htemp], rfl, htemp, rfl, rfl, rfl, rfl,
      by simp [show e.retainCount = 0 by omega], fun h => ?_⟩
    exact cacheGet_cacheUpdate_self _ _ _ _
      (cacheGet_cacheUpdate_self _ _ _ _ h)
  · have h1 : 1 ≤ e.retainCount := by omega
    have hd1 : e.retainDisposable = true := by
      rw [hd]; simp [h1]
    cases hta : e.tempRetainActive with
    | false =>
      have heq : permanentRetain e s = some
          ({ e with
              retainCount := e.retainCount + 1
              permanentlyRetained := true },
            { cache := cacheUpdate
                (cacheUpdate s.cache e.cacheKey
                  { e with retainCount := e.retainCount + 1 })
                e.cacheKey
                { e with
                    retainCount := e.retainCount + 1
                    permanentlyRetained := true }
              storeRetains := s.storeRetains }) := by
        simp only [permanentRetain, entryRetain, if_neg h0, hta,
          Bool.false_eq_true, if_false]
      refine ⟨_, _, heq, by simp [hta], hd1, hta, rfl, rfl, rfl, rfl,
        by simp [show ¬ e.retainCount = 0 by omega], fun h => ?_⟩
      exact cacheGet_cacheUpdate_self _ _ _ _
        (cacheGet_cacheUpdate_self _ _ _ _ h)
    | true =>
      have hmax : ¬ max 0 (e.retainCount + 1 - 1) = 0 := by omega
      have hle : ¬ max 0 (e.retainCount + 1 - 1) ≤ 0 := by omega
      have heq : permanentRetain e s = some
          ({ e with
              retainCount := max 0 (e.retainCount + 1 - 1)
              tempRetainActive := false
              permanentlyRetained := true },
            { cache := cacheUpdate
                (cacheUpdate
                  (cacheUpdate
                    (cacheUpdate s.cache e.cacheKey
                      { e with retainCount := e.retainCount + 1 })
                    e.cacheKey
                    { e with
                        retainCount := max 0 (e.retainCount + 1 - 1)
                        tempRetainActive := false })
                  e.cacheKey
                  { e with
                      retainCount := max 0 (e.retainCount + 1 - 1)
                      tempRetainActive := false })
                e.cacheKey
                { e with
                    retainCount := max 0 (e.retainCount + 1 - 1)
                    tempRetainActive := false
                    permanentlyRetained := true }
              storeRetains := s.storeRetains }) := by
        simp only [permanentRetain, entryRetain, if_neg h0, hta, if_true,
          entryTokenDispose, entryTokenDisposeInner, if_neg hmax,
          onDisposeEntry]
        rw [if_neg (by simpa using hle)]
      refine ⟨_, _, heq, by simp [hta]; omega, hd1, rfl, rfl, rfl, rfl,
        rfl, by simp [show ¬ e.retainCount = 0 by omega], fun h => ?_⟩
      exact cacheGet_cacheUpdate_self _ _ _ _
        (cacheGet_cacheUpdate_self _ _ _ _
          (cacheGet_cacheUpdate_self _ _ _ _
            (cacheGet_cacheUpdate_self _ _ _ _ h)))

lemma queryRetain_hit (qr : QueryResult) (s : QRState) (e : CacheEntry)
    (hget : cacheGet s.cache qr.cacheKey = some e) :
    queryRetain qr s = permanentRetain e s := by
  simp only [queryRetain, hget]

lemma queryRetainDispose_spec (key : String) (s : QRState) (e : CacheEntry)
    (hget : cacheGet s.cache key = some e) (hk : e.cacheKey = key)
    (hd : e.retainDisposable = true) :
    (e.retainCount = 1 →
      ∃ s3, queryRetainDispose key s = some s3 ∧
        cacheGet s3.cache key = none ∧
        s3.storeRetains = s.storeRetains.erase e.operation.rootId) ∧
    (2 ≤ e.retainCount →
      ∃ s3 e3, queryRetainDispose key s = some s3 ∧
        cacheGet s3.cache key = some e3 ∧
        e3.retainCount = e.retainCount - 1 ∧
        e3.permanentlyRetained = false ∧
        s3.storeRetains = s.storeRetains) := by
  constructor
  · intro h1
    have hmax : max 0 (e.retainCount - 1) = 0 := by omega
    have heq : queryRetainDispose key s = some
        { cache := cacheDelete
            (cacheUpdate
              (cacheDelete
                (cacheUpdate s.cache e.cacheKey
                  { e with
                      retainCount := max 0 (e.retainCount - 1)
                      retainDisposable := false })
                e.cacheKey)
              e.cacheKey
              { e with
                  retainCount := max 0 (e.retainCount - 1)
                  retainDisposable := false
                  permanentlyRetained := false })
            e.cacheKey
          storeRetains := s.storeRetains.erase e.operation.rootId } := by
      simp only [queryRetainDispose, hget, permanentRetainDispose,
        entryTokenDispose, entryTokenDisposeInner, if_pos hmax, hd,
        if_true, onDisposeEntry]
      rw [if_pos (by simpa using le_of_eq hmax),
        if_pos (by simpa using le_of_eq hmax)]
    refine ⟨_, heq, ?_, rfl⟩
    rw [show key = ({ e with
        retainCount := max 0 (e.retainCount - 1)
        retainDisposable := false
        permanentlyRetained := false } : CacheEntry).cacheKey from hk.symm]
    exact cacheGet_cacheDelete_self _ _
  · intro h2
    have hmax : ¬ max 0 (e.retainCount - 1) = 0 := by omega
    have hle : ¬ max 0 (e.retainCount - 1) ≤ 0 := by omega
    have heq : queryRetainDispose key s = some
        { cache := cacheUpdate
            (cacheUpdate s.cache e.cacheKey
              { e with retainCount := max 0 (e.retainCount - 1) })
            e.cacheKey
            { e with
                retainCount := max 0 (e.retainCount - 1)
                permanentlyRetained := false }
          storeRetains := s.storeRetains } := by
      simp only [queryRetainDispose, hget, permanentRetainDispose,
        entryTokenDispose, entryTokenDisposeInner, if_neg hmax,
        onDisposeEntry]
      rw [if_neg (by simpa using hle), if_neg (by simpa using hle)]
    refine ⟨_,
      { e with
          retainCount := max 0 (e.retainCount - 1)
          permanentlyRetained := false },
      heq, ?_, by simp; omega, rfl, rfl⟩
    rw [← hk]
    exact cacheGet_cacheUpdate_self _ _ _ _
      (cacheGet_cacheUpdate_self _ _ _ _ (by rw [hk]; exact hget))



/-- C4 counterexample: on an entry with a pending temporary retain (retain
count 1, `tempRetainActive`), `QueryResource.retain` leaves the retain
count at 1 — the count is not incremented as the claim states, because the
permanent retain's unit is offset by the release of the temporary
retain's unit; the temporary-retain timeout is cancelled and the entry is
marked permanently retained. -/
theorem c4_retain_counterexample :
    (queryRetain (getQueryResult sampleOp "k")
        { cache := [("k",
            { cacheKey := "k", operation := sampleOp,
              value := EntryValue.ready (getQueryResult sampleOp "k"),
              retainCount := 1, permanentlyRetained := false,
              retainDisposable := true, tempRetainActive := true })],
          storeRetains := ["root"] }).map
      (fun p => (p.1.retainCount, p.1.tempRetainActive,
        p.1.permanentlyRetained)) = some (1, false, true) := by
  decide

/-- C4 (amended): `QueryResource.retain` cancels any pending
temporary-retain timeout and establishes the permanent retain; the count
is incremented by the permanent retain's unit and the temporary retain's
unit is released, so the net count is unchanged when a temporary retain
was pending and incremented by one otherwise; the underlying store retain
of the operation root is acquired exactly on the 0-to-1 transition;
disposing the returned disposable decrements the count, and when the
count reaches zero the store retain is released and the entry is deleted
from the cache. -/
theorem c4_retain_dispose_amended (qr : QueryResult) (s : QRState)
    (e : CacheEntry)
    (hget : cacheGet s.cache qr.cacheKey = some e)
    (hk : e.cacheKey = qr.cacheKey)
    (hc : 0 ≤ e.retainCount)
    (ht : e.tempRetainActive = true → 1 ≤ e.retainCount)
    (hd : e.retainDisposable = decide (1 ≤ e.retainCount)) :
    ∃ e2 s2, queryRetain qr s = some (e2, s2) ∧
      e2.tempRetainActive = false ∧
      e2.permanentlyRetained = true ∧
      e2.retainCount =
        (if e.tempRetainActive then e.retainCount else e.retainCount + 1) ∧
      s2.storeRetains =
        (if e.retainCount = 0 then e.operation.rootId :: s.storeRetains
        else s.storeRetains) ∧
      cacheGet s2.cache qr.cacheKey = some e2 ∧
      (e2.retainCount = 1 →
        ∃ s3, queryRetainDispose qr.cacheKey s2 = some s3 ∧
          cacheGet s3.cache qr.cacheKey = none ∧
          s3.storeRetains = s2.storeRetains.erase e.operation.rootId) ∧
      (2 ≤ e2.retainCount →
        ∃ s3 e3, queryRetainDispose qr.cacheKey s2 = some s3 ∧
          cacheGet s3.cache qr.cacheKey = some e3 ∧
          e3.retainCount = e2.retainCount - 1 ∧
          s3.storeRetains = s2.storeRetains) := by
  rw [queryRetain_hit qr s e hget]
  obtain ⟨e2, s2, heq, hcount, hdisp2, htemp2, hperm2, hval2, hkey2, hop2,
    hret2, hpres2⟩ := permanentRetain_spec e s hc ht hd
  have hget' : cacheGet s.cache e.cacheKey = some e := by rw [hk]; exact hget
  have hpres : cacheGet s2.cache qr.cacheKey = some e2 := by
    rw [← hk]; exact hpres2 hget'
  refine ⟨e2, s2, heq, htemp2, hperm2, hcount, hret2, hpres, ?_, ?_⟩
  · intro h1
    obtain ⟨s3, hdq, hnone, hrets⟩ :=
      (queryRetainDispose_spec qr.cacheKey s2 e2 hpres (hkey2.trans hk)
        hdisp2).1 h1
    rw [hop2] at hrets
    exact ⟨s3, hdq, hnone, hrets⟩
  · intro h2
    obtain ⟨s3, e3, hdq, hsome, hcnt, -, hrets⟩ :=
      (queryRetainDispose_spec qr.cacheKey s2 e2 hpres (hkey2.trans hk)
        hdisp2).2 h2
    exact ⟨s3, e3, hdq, hsome, hcnt, hrets⟩

/-- Witness for C4 (amended) at a concrete input: a ready entry with no
outstanding retains; `retain` takes the count to 1 acquiring the store
retain, and disposing releases it and deletes the entry. -/
theorem c4_retain_dispose_amended_witness :
    (queryRetain (getQueryResult sampleOp "k")
        { cache := [("k", createQueryResourceCacheEntry "k" sampleOp
            (EntryValue.ready (getQueryResult sampleOp "k")))],
          storeRetains := [] }).map
      (fun p => (p.1.retainCount, p.1.permanentlyRetained,
        p.2.storeRetains)) = some (1, true, ["root"]) ∧
    ((queryRetain (getQueryResult sampleOp "k")
        { cache := [("k", createQueryResourceCacheEntry "k" sampleOp
            (EntryValue.ready (getQueryResult sampleOp "k")))],
          storeRetains := [] }).bind
      (fun p => queryRetainDispose "k" p.2)).map
      (fun s3 => (cacheGet s3.cache "k", s3.storeRetains)) =
      some (none, []) := by
  obtain ⟨e2, s2, heq, htemp2, hperm2, hcount, hrets, hpres, hdisp1, -⟩ :=
    c4_retain_dispose_amended (getQueryResult sampleOp "k")
      { cache := [("k", createQueryResourceCacheEntry "k" sampleOp
          (EntryValue.ready (getQueryResult sampleOp "k")))],
        storeRetains := [] }
      (createQueryResourceCacheEntry "k" sampleOp
        (EntryValue.ready (getQueryResult sampleOp "k")))
      (by rfl) (by rfl) (by decide) (by decide) (by decide)
  have hcount1 : e2.retainCount = 1 := by
    rw [hcount]; rfl
  have hrets1 : s2.storeRetains = ["root"] := by
    rw [hrets]; rfl
  obtain ⟨s3, hdq, hnone, hrets3⟩ := hdisp1 hcount1
  constructor
  · rw [heq]
    show some (e2.retainCount, e2.permanentlyRetained, s2.storeRetains) =
      some (1, true, ["root"])
    rw [hcount1, hperm2, hrets1]
  · rw [heq]
    show (queryRetainDispose "k" s2).map
      (fun s3 => (cacheGet s3.cache "k", s3.storeRetains)) = some (none, [])
    have hdq2 : queryRetainDispose "k" s2 = some s3 := hdq
    rw [hdq2]
    show some (cacheGet s3.cache "k", s3.storeRetains) = some (none, [])
    have hnone2 : cacheGet s3.cache "k" = none := hnone
    have hrets4 : s3.storeRetains = s2.storeRetains.erase "root" := hrets3
    rw [hnone2, hrets4, hrets1]
    rfl

lemma entryRetain_wf (e : CacheEntry) (r : List String) (hwf : entryWf e) :
    entryWf (entryRetain e r).1 := by
  obtain ⟨hc, hd⟩ := hwf
  unfold entryRetain entryWf
  by_cases h0 : e.retainCount + 1 = 1
  · simp [h0]
  · have h1 : 1 ≤ e.retainCount := by omega
    rw [if_neg h0]
    constructor
    · simp; omega
    · simp only [hd]
      simp only [decide_eq_decide]
      omega

lemma entryTokenDisposeInner_wf (e : CacheEntry) (r : List String)
    (e2 : CacheEntry) (r2 : List String) (hwf : entryWf e)
    (h : entryTokenDisposeInner e r = some (e2, r2)) : entryWf e2 := by
  obtain ⟨hc, hd⟩ := hwf
  unfold entryTokenDisposeInner at h
  by_cases hmax : max 0 (e.retainCount - 1) = 0
  · rw [if_pos hmax] at h
    cases hdisp : e.retainDisposable with
    | false => rw [hdisp] at h; exact absurd h (by simp)
    | true =>
      rw [hdisp] at h
      injection h with hpair
      injection hpair with h2 h3
      subst h2
      constructor
      · simp
      · simp [hmax]
  · rw [if_neg hmax] at h
    injection h with hpair
    injection hpair with h2 h3
    subst h2
    constructor
    · simp
    · show e.retainDisposable = decide (1 ≤ max 0 (e.retainCount - 1))
      rw [hd]
      simp only [decide_eq_decide]
      omega

lemma runRetainTrace_wf (ops : List RetainOp) :
    ∀ ts ts', entryWf ts.entry → runRetainTrace ts ops = some ts' →
      entryWf ts'.entry := by
  induction ops with
  | nil =>
    intro ts ts' hwf h
    simp only [runRetainTrace, Option.some.injEq] at h
    rw [← h]
    exact hwf
  | cons op rest ih =>
    intro ts ts' hwf h
    cases op with
    | retain =>
      simp only [runRetainTrace] at h
      exact ih _ _ (entryRetain_wf ts.entry ts.storeRetains hwf) h
    | dispose tok =>
      simp only [runRetainTrace] at h
      cases hinner : entryTokenDisposeInner ts.entry ts.storeRetains with
      | none => rw [hinner] at h; exact absurd h (by simp)
      | some p =>
        rw [hinner] at h
        exact ih _ _
          (entryTokenDisposeInner_wf ts.entry ts.storeRetains p.1 p.2 hwf
            (by rw [hinner])) h

/-- C8 counterexample: the trace (retain; retain; dispose token 0; dispose
token 0) contains an unmatched disposal — token 0 is disposed twice — yet
runs to completion with no invariant failure: the second disposal of token
0 silently consumes the retain unit belonging to token 1, because the
dispose closure shares one count and carries no token identity. -/
theorem c8_unmatched_dispose_counterexample :
    hasUnmatchedDisposal 0 []
      [RetainOp.retain, RetainOp.retain, RetainOp.dispose 0,
        RetainOp.dispose 0] = true ∧
    (runRetainTrace
      { entry := createQueryResourceCacheEntry "k" sampleOp
          EntryValue.pending
        storeRetains := []
        issued := 0 }
      [RetainOp.retain, RetainOp.retain, RetainOp.dispose 0,
        RetainOp.dispose 0]).isSome = true := by
  decide

/-- C8 (amended): a disposal called when the entry's retain count is
already zero fails loudly with the invariant failure; a disposal while the
count is still positive silently decrements the shared count even when its
token was already disposed (dispose closures carry no token identity); and
along every retain trace the retain count never goes below zero. -/
theorem c8_dispose_amended (e : CacheEntry) (retains : List String)
    (hwf : entryWf e) :
    (e.retainCount = 0 → entryTokenDisposeInner e retains = none) ∧
    (1 ≤ e.retainCount → ∃ e2 r2,
      entryTokenDisposeInner e retains = some (e2, r2) ∧
      e2.retainCount = e.retainCount - 1) ∧
    (∀ ops n ts', runRetainTrace
        { entry := e, storeRetains := retains, issued := n } ops =
        some ts' →
      0 ≤ ts'.entry.retainCount) := by
  obtain ⟨hc, hd⟩ := hwf
  refine ⟨fun h0 => ?_, fun h1 => ?_, fun ops n ts' h => ?_⟩
  · have hdisp : e.retainDisposable = false := by
      rw [hd]; simp; omega
    unfold entryTokenDisposeInner
    rw [if_pos (by omega : max 0 (e.retainCount - 1) = 0), hdisp]
    rfl
  · by_cases hone : e.retainCount = 1
    · have hdisp : e.retainDisposable = true := by rw [hd]; simp [hone]
      refine ⟨{ e with retainCount := max 0 (e.retainCount - 1), retainDisposable := false },
        retains.erase e.operation.rootId, ?_, ?_⟩
      · unfold entryTokenDisposeInner
        rw [if_pos (by omega : max 0 (e.retainCount - 1) = 0), hdisp]
        rfl
      · simp; omega
    · refine ⟨{ e with retainCount := max 0 (e.retainCount - 1) }, retains,
        ?_, ?_⟩
      · unfold entryTokenDisposeInner
        rw [if_neg (by omega : ¬ max 0 (e.retainCount - 1) = 0)]
      · simp; omega
  · exact (runRetainTrace_wf ops _ ts' ⟨hc, hd⟩ h).1

/-- Witness for C8 (amended) at concrete inputs: disposing a fresh entry
(count 0) fails loudly with the invariant failure, and a disposal at count
2 silently decrements to 1. -/
theorem c8_dispose_amended_witness :
    entryTokenDisposeInner
      (createQueryResourceCacheEntry "k" sampleOp EntryValue.pending) [] =
      none ∧
    (entryTokenDisposeInner
        { cacheKey := "k", operation := sampleOp,
          value := EntryValue.pending, retainCount := 2,
          permanentlyRetained := false, retainDisposable := true,
          tempRetainActive := false } []).map
      (fun p => p.1.retainCount) = some 1 := by
  constructor
  · exact (c8_dispose_amended
      (createQueryResourceCacheEntry "k" sampleOp EntryValue.pending) []
      (by decide)).1 (by decide)
  · obtain ⟨e2, r2, heq, hcnt⟩ := (c8_dispose_amended
      { cacheKey := "k", operation := sampleOp,
        value := EntryValue.pending, retainCount := 2,
        permanentlyRetained := false, retainDisposable := true,
        tempRetainActive := false } [] (by decide)).2.1 (by decide)
    rw [heq]
    show some e2.retainCount = some 1
    rw [hcnt]
    decide

lemma queryRetain_miss (qr : QueryResult) (s : QRState)
    (hmiss : cacheGet s.cache qr.cacheKey = none) :
    queryRetain qr s = permanentRetain
      (createQueryResourceCacheEntry qr.cacheKey qr.operation
        (EntryValue.ready qr))
      { s with
          cache := cacheSet s.cache qr.cacheKey
                     (createQueryResourceCacheEntry qr.cacheKey qr.operation
                       (EntryValue.ready qr)) } := by
  simp only [queryRetain, hmiss]

/-- C9: when `QueryResource.retain` is called with a result whose cache
entry is no longer present, it creates a fresh entry holding that ready
result, inserts it under the original cache key, and permanently retains
it (count 1, store retain of the operation root acquired); a subsequent
`prepare` whose computed cache key equals that key returns the ready
result without issuing a fetch. -/
theorem c9_retain_recreates_entry (qr : QueryResult) (s : QRState)
    (hmiss : cacheGet s.cache qr.cacheKey = none) :
    ∃ e2 s2, queryRetain qr s = some (e2, s2) ∧
      e2.value = EntryValue.ready qr ∧
      e2.retainCount = 1 ∧
      e2.permanentlyRetained = true ∧
      e2.cacheKey = qr.cacheKey ∧
      cacheGet s2.cache qr.cacheKey = some e2 ∧
      s2.storeRetains = qr.operation.rootId :: s.storeRetains ∧
      (∀ canUseDOM epd mfp mrp buster full,
        prepareCacheKey epd qr.operation mfp mrp buster = qr.cacheKey →
        (prepare canUseDOM epd qr.operation mfp mrp buster full s2).outcome =
          PrepareOutcome.ret qr ∧
        (prepare canUseDOM epd qr.operation mfp mrp buster full
          s2).fetchIssued = false) := by
  have hq := queryRetain_miss qr s hmiss
  obtain ⟨e2, s2, heq, hcount, hdisp2, htemp2, hperm2, hval2, hkey2, hop2,
    hret2, hpres2⟩ := permanentRetain_spec
      (createQueryResourceCacheEntry qr.cacheKey qr.operation
        (EntryValue.ready qr))
      { s with
          cache := cacheSet s.cache qr.cacheKey
                     (createQueryResourceCacheEntry qr.cacheKey qr.operation
                       (EntryValue.ready qr)) }
      (by simp [createQueryResourceCacheEntry])
      (by simp [createQueryResourceCacheEntry])
      (by simp [createQueryResourceCacheEntry])
  have hcount1 : e2.retainCount = 1 := by
    rw [hcount]; rfl
  have hkey1 : e2.cacheKey = qr.cacheKey := hkey2
  have hret1 : s2.storeRetains = qr.operation.rootId :: s.storeRetains := by
    rw [hret2]; rfl
  have hpres1 : cacheGet s2.cache qr.cacheKey = some e2 :=
    hpres2 (cacheGet_cacheSet_self _ _ _)
  refine ⟨e2, s2, hq.trans heq, hval2, hcount1, hperm2, hkey1, hpres1,
    hret1, fun canUseDOM epd mfp mrp buster full hkeyh => ?_⟩
  obtain ⟨ho, hi, -, -⟩ := prepare_hit canUseDOM epd qr.operation mfp mrp
    buster full s2 e2 (by rw [hkeyh]; exact hpres1)
    (hkey1.trans hkeyh.symm) (by omega)
    (fun _ => by omega)
  rw [ho, hval2]
  exact ⟨rfl, hi⟩

/-- Witness for C9 at a concrete input: retain on an empty cache creates a
permanently retained ready entry (count 1), and a retried `prepare` for
the matching key returns the ready result without fetching. -/
theorem c9_retain_recreates_entry_witness :
    (queryRetain (getQueryResult sampleOp "store-or-network-full-q")
        emptyQRState).map
      (fun p => (p.1.value, p.1.retainCount,
        (prepare true false sampleOp (some "store-or-network") (some "full")
          none false p.2).outcome,
        (prepare true false sampleOp (some "store-or-network") (some "full")
          none false p.2).fetchIssued)) =
      some (EntryValue.ready
          (getQueryResult sampleOp "store-or-network-full-q"), 1,
        PrepareOutcome.ret
          (getQueryResult sampleOp "store-or-network-full-q"), false) := by
  obtain ⟨e2, s2, heq, hval, hcount, -, -, -, -, hprep⟩ :=
    c9_retain_recreates_entry
      (getQueryResult sampleOp "store-or-network-full-q") emptyQRState
      (by rfl)
  obtain ⟨ho, hi⟩ := hprep true false (some "store-or-network")
    (some "full") none false (by rfl)
  have ho2 : (prepare true false sampleOp (some "store-or-network")
      (some "full") none false s2).outcome = PrepareOutcome.ret
        (getQueryResult sampleOp "store-or-network-full-q") := ho
  have hi2 : (prepare true false sampleOp (some "store-or-network")
      (some "full") none false s2).fetchIssued = false := hi
  rw [heq]
  show some (e2.value, e2.retainCount,
    (prepare true false sampleOp (some "store-or-network") (some "full")
      none false s2).outcome,
    (prepare true false sampleOp (some "store-or-network") (some "full")
      none false s2).fetchIssued) = _
  rw [hval, hcount, ho2, hi2]

/-- C10: when the execution environment cannot use the DOM (server-side
rendering), `temporaryRetain` is a no-op — it acquires no store retain,
leaves the entry's retain count unchanged and schedules no expiry timer
(entry and state are returned unchanged) — while `prepare` still returns
or throws the same value, and issues the same fetches, as it would with
the DOM available. -/
theorem c10_ssr_temporary_retain_noop :
    (∀ (e : CacheEntry) (s : QRState),
      temporaryRetain false e s = some (e, s)) ∧
    (∀ (epd : Bool) (op : OperationDescriptor)
      (mfp mrp buster : Option String) (full : Bool) (s : QRState),
      (∀ e, cacheGet s.cache (prepareCacheKey epd op mfp mrp buster) =
          some e →
        e.cacheKey = prepareCacheKey epd op mfp mrp buster ∧
        0 ≤ e.retainCount ∧
        (e.tempRetainActive = true → 1 ≤ e.retainCount)) →
      (prepare false epd op mfp mrp buster full s).outcome =
        (prepare true epd op mfp mrp buster full s).outcome ∧
      (prepare false epd op mfp mrp buster full s).fetchIssued =
        (prepare true epd op mfp mrp buster full s).fetchIssued) := by
  refine ⟨fun e s => rfl, fun epd op mfp mrp buster full s hwf => ?_⟩
  cases hget : cacheGet s.cache (prepareCacheKey epd op mfp mrp buster) with
  | some e =>
    obtain ⟨hk, hc, ht⟩ := hwf e hget
    obtain ⟨hoF, hiF, -, -⟩ :=
      prepare_hit false epd op mfp mrp buster full s e hget hk hc ht
    obtain ⟨hoT, hiT, -, -⟩ :=
      prepare_hit true epd op mfp mrp buster full s e hget hk hc ht
    rw [hoF, hoT, hiF, hiT]
    exact ⟨rfl, rfl⟩
  | none =>
    have hsome : ∀ canUseDOM, prepare canUseDOM epd op mfp mrp buster full
        s = prepare canUseDOM epd op
          (some (mfp.getD DEFAULT_FETCH_POLICY))
          (some (mrp.getD (DEFAULT_RENDER_POLICY epd))) buster full s := by
      intro canUseDOM
      cases mfp <;> cases mrp <;> rfl
    have hksome : prepareCacheKey epd op mfp mrp buster =
        prepareCacheKey epd op (some (mfp.getD DEFAULT_FETCH_POLICY))
          (some (mrp.getD (DEFAULT_RENDER_POLICY epd))) buster := by
      cases mfp <;> cases mrp <;> rfl
    rw [hksome] at hget
    obtain ⟨hoF, hiF, -, -⟩ := prepare_miss_spec false epd op
      (mfp.getD DEFAULT_FETCH_POLICY)
      (mrp.getD (DEFAULT_RENDER_POLICY epd)) buster full s hget
    obtain ⟨hoT, hiT, -, -⟩ := prepare_miss_spec true epd op
      (mfp.getD DEFAULT_FETCH_POLICY)
      (mrp.getD (DEFAULT_RENDER_POLICY epd)) buster full s hget
    rw [hsome false, hsome true, hoF, hoT, hiF, hiT]
    exact ⟨rfl, rfl⟩

/-- Witness for C10 at a concrete input: a pending entry is unchanged by a
server-side temporary retain, and `prepare` on an empty cache suspends the
same way with or without the DOM. -/
theorem c10_ssr_temporary_retain_noop_witness :
    temporaryRetain false
      (createQueryResourceCacheEntry "k" sampleOp EntryValue.pending)
      emptyQRState = some
        (createQueryResourceCacheEntry "k" sampleOp EntryValue.pending,
          emptyQRState) ∧
    (prepare false false sampleOp (some "store-or-network") (some "full")
        none false emptyQRState).outcome =
      (prepare true false sampleOp (some "store-or-network") (some "full")
        none false emptyQRState).outcome := by
  constructor
  · exact c10_ssr_temporary_retain_noop.1
      (createQueryResourceCacheEntry "k" sampleOp EntryValue.pending)
      emptyQRState
  · exact (c10_ssr_temporary_retain_noop.2 false sampleOp
      (some "store-or-network") (some "full") none false emptyQRState
      (fun e he => by exact absurd he (by simp [emptyQRState, cacheGet]))).1



/-- C7 counterexample: `prepare` called with the unrecognized fetch policy
`"bogus"` on a fully-cached, cache-missing operation does not raise a
configuration error — it silently applies the default switch branch
(network-only behavior): a fetch is issued and the pending promise is
thrown, exactly as for `network-only`. -/
theorem c7_unrecognized_policy_counterexample :
    (prepare true false sampleOp (some "bogus") (some "full") none true
        emptyQRState).outcome = PrepareOutcome.throwPending ∧
    (prepare true false sampleOp (some "bogus") (some "full") none true
        emptyQRState).fetchIssued = true ∧
    (prepare true false sampleOp (some "bogus") (some "full") none true
        emptyQRState).outcome =
      (prepare true false sampleOp (some "network-only") (some "full") none
        true emptyQRState).outcome := by
  refine ⟨?_, ?_, ?_⟩ <;> decide

/-- C7 (amended): fetch-policy values outside the recognized enumeration
are not rejected at the point of use — the switch's `default` branch
silently gives them `network-only` behavior (always fetch, never allow
render before completion); the documented defaults hold: an omitted fetch
policy defaults to `store-or-network` and an omitted render policy to
`full`, or `partial` when the process-wide
`ENABLE_PARTIAL_RENDERING_DEFAULT` flag is set. -/
theorem c7_policy_defaults_amended :
    (∀ fp : String, fp ≠ "store-only" → fp ≠ "store-or-network" →
      fp ≠ "store-and-network" → ∀ (full : Bool) (rp : String),
      fetchDecision fp full rp = (true, false)) ∧
    (∀ (fp : String), fp ≠ "store-only" → fp ≠ "store-or-network" →
      fp ≠ "store-and-network" →
      ∀ (canUseDOM epd : Bool) (op : OperationDescriptor) (rp : String)
        (buster : Option String) (full : Bool) (s : QRState),
      cacheGet s.cache (prepareCacheKey epd op (some fp) (some rp) buster) =
        none →
      (prepare canUseDOM epd op (some fp) (some rp) buster full s).outcome =
        PrepareOutcome.throwPending ∧
      (prepare canUseDOM epd op (some fp) (some rp) buster full
        s).fetchIssued = true) ∧
    (∀ (canUseDOM epd : Bool) (op : OperationDescriptor)
      (mrp buster : Option String) (full : Bool) (s : QRState),
      prepare canUseDOM epd op none mrp buster full s =
        prepare canUseDOM epd op (some "store-or-network") mrp buster full
          s) ∧
    (∀ (canUseDOM epd : Bool) (op : OperationDescriptor)
      (mfp buster : Option String) (full : Bool) (s : QRState),
      prepare canUseDOM epd op mfp none buster full s =
        prepare canUseDOM epd op mfp
          (some (if epd then "partial" else "full")) buster full s) ∧
    DEFAULT_FETCH_POLICY = "store-or-network" := by
  have hdec : ∀ fp : String, fp ≠ "store-only" → fp ≠ "store-or-network" →
      fp ≠ "store-and-network" → ∀ (full : Bool) (rp : String),
      fetchDecision fp full rp = (true, false) := by
    intro fp h1 h2 h3 full rp
    have b1 : (fp == "store-only") = false := beq_eq_false_iff_ne.mpr h1
    have b2 : (fp == "store-or-network") = false :=
      beq_eq_false_iff_ne.mpr h2
    have b3 : (fp == "store-and-network") = false :=
      beq_eq_false_iff_ne.mpr h3
    unfold fetchDecision
    rw [b1, b2, b3]
    rfl
  refine ⟨hdec, ?_, fun _ _ _ _ _ _ _ => rfl, ?_, rfl⟩
  · intro fp h1 h2 h3 canUseDOM epd op rp buster full s hmiss
    obtain ⟨ho, hi, -, -⟩ :=
      prepare_miss_spec canUseDOM epd op fp rp buster full s hmiss
    rw [hdec fp h1 h2 h3 full rp] at ho hi
    simp only [Bool.false_eq_true, if_false] at ho
    exact ⟨ho, hi⟩
  · intro canUseDOM epd op mfp buster full s
    cases epd <;> rfl

/-- Witness for C7 (amended) at concrete inputs: `"bogus"` gets
network-only behavior on an empty cache, and the defaults hold. -/
theorem c7_policy_defaults_amended_witness :
    fetchDecision "bogus" true "full" = (true, false) ∧
    (prepare true false sampleOp (some "bogus") (some "full") none true
        emptyQRState).outcome = PrepareOutcome.throwPending ∧
    prepare true false sampleOp none (some "full") none true emptyQRState =
      prepare true false sampleOp (some "store-or-network") (some "full")
        none true emptyQRState := by
  obtain ⟨hdec, hbogus, hdef, -, -⟩ := c7_policy_defaults_amended
  refine ⟨hdec "bogus" (by decide) (by decide) (by decide) true "full",
    ?_, hdef true false sampleOp (some "full") none true emptyQRState⟩
  exact (hbogus "bogus" (by decide) (by decide) (by decide) true false
    sampleOp "full" none true emptyQRState (by rfl)).1



end Relay

namespace Pagination

lemma lookupVar_cons (k k1 : String) (v1 : Value) (rest : Variables) :
    List.lookup k ((k1, v1) :: rest) =
      if k = k1 then some v1 else List.lookup k rest := by
  by_cases h : k = k1
  · rw [if_pos h]
    have hb : (k == k1) = true := beq_iff_eq.mpr h
    simp [List.lookup, hb]
  · rw [if_neg h]
    have hb : (k == k1) = false := beq_eq_false_iff_ne.mpr h
    simp [List.lookup, hb]

lemma lookup_setVar_self (vs : Variables) (k : String) (v : Value) :
    List.lookup k (setVar vs k v) = some v := by
  induction vs with
  | nil => simp [setVar, lookupVar_cons]
  | cons p rest ih =>
    obtain ⟨k1, v1⟩ := p
    by_cases h : k1 = k
    · have hb : (k1 == k) = true := beq_iff_eq.mpr h
      simp [setVar, hb, lookupVar_cons]
    · have hb : (k1 == k) = false := beq_eq_false_iff_ne.mpr h
      simpa [setVar, hb, lookupVar_cons, Ne.symm h] using ih

lemma lookup_setVar_ne (vs : Variables) (k k2 : String) (v : Value)
    (h : k2 ≠ k) :
    List.lookup k2 (setVar vs k v) = List.lookup k2 vs := by
  induction vs with
  | nil => simp [setVar, lookupVar_cons, h]
  | cons p rest ih =>
    obtain ⟨k1, v1⟩ := p
    by_cases h1 : k1 = k
    · have hb : (k1 == k) = true := beq_iff_eq.mpr h1
      subst h1
      simp [setVar, hb, lookupVar_cons, h]
    · have hb : (k1 == k) = false := beq_eq_false_iff_ne.mpr h1
      by_cases h2 : k2 = k1
      · simp [setVar, hb, lookupVar_cons, h2]
      · simp [setVar, hb, lookupVar_cons, h2, ih]

/-- C5: every `loadMore` call that actually issues a fetch builds the
pagination request from the *base* operation's variables with the cursor
argument (`after` forward, `before` backward) overridden by the current
page-info's end/start cursor and the page-size argument (`first`/`last`)
set to the requested count, and its root node identifier (realized as the
`id` variable of the refetch query) is the identifier of the record owning
the connection field — the consumer's fragment reference — not the
top-level query root; all other variables are taken unchanged from the
base operation. -/
theorem c5_loadmore_request (dir : Direction) (n : Int) (c : ConsumerState)
    (baseVars : Variables) (conn : ConnectionSnapshot)
    (req : PaginationRequest)
    (h : loadMore dir n c baseVars conn = LoadMoreResult.fetch req) :
    (∃ ownerId, c.fragmentRef = some ownerId ∧ req.rootId = ownerId ∧
      List.lookup "id" req.vars = some (Value.vstr ownerId)) ∧
    (dir = Direction.forward →
      ∃ ec, conn.pageInfo.endCursor = some ec ∧
        List.lookup "after" req.vars = some (Value.vstr ec) ∧
        List.lookup "first" req.vars = some (Value.vint n) ∧
        ∀ k, k ≠ "after" → k ≠ "first" → k ≠ "id" →
          List.lookup k req.vars = List.lookup k baseVars) ∧
    (dir = Direction.backward →
      ∃ sc, conn.pageInfo.startCursor = some sc ∧
        List.lookup "before" req.vars = some (Value.vstr sc) ∧
        List.lookup "last" req.vars = some (Value.vint n) ∧
        ∀ k, k ≠ "before" → k ≠ "last" → k ≠ "id" →
          List.lookup k req.vars = List.lookup k baseVars) := by
  cases hm : c.mounted with
  | false => simp [loadMore, hm] at h
  | true =>
  cases href : c.fragmentRef with
  | none => simp [loadMore, hm, href] at h
  | some ownerId =>
  cases dir with
  | forward =>
    cases hil : c.isLoadingNext with
    | true => simp [loadMore, hm, href, hil] at h
    | false =>
    cases hmore : hasMore Direction.forward conn with
    | false => simp [loadMore, hm, href, hil, hmore] at h
    | true =>
    have hcur : conn.pageInfo.endCursor.isSome = true := by
      unfold hasMore at hmore
      exact (Bool.and_eq_true_iff.mp
        ((Bool.and_eq_true_iff.mp hmore).1)).2
    obtain ⟨ec, hec⟩ := Option.isSome_iff_exists.mp hcur
    rw [loadMore] at h
    rw [hm, href, hil, hmore, hec] at h
    simp only [Bool.not_true, Bool.false_eq_true, if_false,
      Bool.not_false, LoadMoreResult.fetch.injEq] at h
    subst h
    refine ⟨⟨ownerId, rfl, rfl, lookup_setVar_self _ _ _⟩,
      fun _ => ?_, fun hd => absurd hd (by decide)⟩
    refine ⟨ec, hec, ?_, ?_, ?_⟩
    · rw [lookup_setVar_ne _ _ _ _ (by decide),
        lookup_setVar_ne _ _ _ _ (by decide),
        lookup_setVar_self]
    · rw [lookup_setVar_ne _ _ _ _ (by decide),
        lookup_setVar_self]
    · intro k hka hkf hki
      rw [lookup_setVar_ne _ _ _ _ hki,
        lookup_setVar_ne _ _ _ _ hkf,
        lookup_setVar_ne _ _ _ _ hka]
  | backward =>
    cases hil : c.isLoadingPrevious with
    | true => simp [loadMore, hm, href, hil] at h
    | false =>
    cases hmore : hasMore Direction.backward conn with
    | false => simp [loadMore, hm, href, hil, hmore] at h
    | true =>
    have hcur : conn.pageInfo.startCursor.isSome = true := by
      unfold hasMore at hmore
      exact (Bool.and_eq_true_iff.mp
        ((Bool.and_eq_true_iff.mp hmore).1)).2
    obtain ⟨sc, hsc⟩ := Option.isSome_iff_exists.mp hcur
    rw [loadMore] at h
    rw [hm, href, hil, hmore, hsc] at h
    simp only [Bool.not_true, Bool.false_eq_true, if_false,
      Bool.not_false, LoadMoreResult.fetch.injEq] at h
    subst h
    refine ⟨⟨ownerId, rfl, rfl, lookup_setVar_self _ _ _⟩,
      fun hd => absurd hd (by decide), fun _ => ?_⟩
    refine ⟨sc, hsc, ?_, ?_, ?_⟩
    · rw [lookup_setVar_ne _ _ _ _ (by decide),
        lookup_setVar_ne _ _ _ _ (by decide),
        lookup_setVar_self]
    · rw [lookup_setVar_ne _ _ _ _ (by decide),
        lookup_setVar_self]
    · intro k hkb hkl hki
      rw [lookup_setVar_ne _ _ _ _ hki,
        lookup_setVar_ne _ _ _ _ hkl,
        lookup_setVar_ne _ _ _ _ hkb]


/-- Witness for C5 at the concrete scenario of the nested-fragment test:
the base operation's variables carry the top-level query root
`"<feedbackid>"`, the fragment is owned by user `"1"`, and the issued
request uses id `"1"` (not `"<feedbackid>"`), cursor `"cursor:1"` and page
size 1 while preserving the remaining variables. -/
theorem c5_loadmore_request_witness :
    loadMore Direction.forward 1
      { mounted := true, fragmentRef := some "1", isLoadingNext := false,
        isLoadingPrevious := false }
      [("id", Value.vstr "<feedbackid>"), ("after", Value.vnull),
        ("first", Value.vnull), ("before", Value.vnull),
        ("last", Value.vnull), ("isViewerFriendLocal", Value.vbool false),
        ("orderby", Value.vlist ["name"])]
      { edges := some [("cursor:1", "node:1")]
        pageInfo := { startCursor := some "cursor:1",
                      endCursor := some "cursor:1",
                      hasNextPage := true, hasPreviousPage := false } } =
      LoadMoreResult.fetch
        { rootId := "1", vars :=
                        [("id", Value.vstr "1"),
                          ("after", Value.vstr "cursor:1"),
                          ("first", Value.vint 1), ("before", Value.vnull),
                          ("last", Value.vnull),
                          ("isViewerFriendLocal", Value.vbool false),
                          ("orderby", Value.vlist ["name"])] } ∧
    ({ rootId := "1", vars :=
                        [("id", Value.vstr "1"),
                          ("after", Value.vstr "cursor:1"),
                          ("first", Value.vint 1), ("before", Value.vnull),
                          ("last", Value.vnull),
                          ("isViewerFriendLocal", Value.vbool false),
                          ("orderby", Value.vlist ["name"])] } : PaginationRequest).rootId = "1" ∧
    List.lookup "id"
      ({ rootId := "1", vars :=
                        [("id", Value.vstr "1"),
                          ("after", Value.vstr "cursor:1"),
                          ("first", Value.vint 1), ("before", Value.vnull),
                          ("last", Value.vnull),
                          ("isViewerFriendLocal", Value.vbool false),
                          ("orderby", Value.vlist ["name"])] } : PaginationRequest).vars = some (Value.vstr "1") ∧
    List.lookup "after"
      ({ rootId := "1", vars :=
                        [("id", Value.vstr "1"),
                          ("after", Value.vstr "cursor:1"),
                          ("first", Value.vint 1), ("before", Value.vnull),
                          ("last", Value.vnull),
                          ("isViewerFriendLocal", Value.vbool false),
                          ("orderby", Value.vlist ["name"])] } : PaginationRequest).vars =
      some (Value.vstr "cursor:1") ∧
    List.lookup "first"
      ({ rootId := "1", vars :=
                        [("id", Value.vstr "1"),
                          ("after", Value.vstr "cursor:1"),
                          ("first", Value.vint 1), ("before", Value.vnull),
                          ("last", Value.vnull),
                          ("isViewerFriendLocal", Value.vbool false),
                          ("orderby", Value.vlist ["name"])] } : PaginationRequest).vars = some (Value.vint 1) ∧
    List.lookup "orderby"
      ({ rootId := "1", vars :=
                        [("id", Value.vstr "1"),
                          ("after", Value.vstr "cursor:1"),
                          ("first", Value.vint 1), ("before", Value.vnull),
                          ("last", Value.vnull),
                          ("isViewerFriendLocal", Value.vbool false),
                          ("orderby", Value.vlist ["name"])] } : PaginationRequest).vars =
      some (Value.vlist ["name"]) := by
  have h : loadMore Direction.forward 1
      { mounted := true, fragmentRef := some "1", isLoadingNext := false,
        isLoadingPrevious := false }
      [("id", Value.vstr "<feedbackid>"), ("after", Value.vnull),
        ("first", Value.vnull), ("before", Value.vnull),
        ("last", Value.vnull), ("isViewerFriendLocal", Value.vbool false),
        ("orderby", Value.vlist ["name"])]
      { edges := some [("cursor:1", "node:1")]
        pageInfo := { startCursor := some "cursor:1",
                      endCursor := some "cursor:1",
                      hasNextPage := true, hasPreviousPage := false } } =
      LoadMoreResult.fetch
        { rootId := "1", vars :=
                        [("id", Value.vstr "1"),
                          ("after", Value.vstr "cursor:1"),
                          ("first", Value.vint 1), ("before", Value.vnull),
                          ("last", Value.vnull),
                          ("isViewerFriendLocal", Value.vbool false),
                          ("orderby", Value.vlist ["name"])] } := by decide
  obtain ⟨⟨ownerId, href, hroot, hid⟩, hfwd, -⟩ :=
    c5_loadmore_request Direction.forward 1 _ _ _ _ h
  obtain rfl : "1" = ownerId := by injection href
  obtain ⟨ec, hec, hafter, hfirst, hpres⟩ := hfwd rfl
  obtain rfl : "cursor:1" = ec := by injection hec
  have horder := hpres "orderby" (by decide) (by decide) (by decide)
  exact ⟨h, hroot, hid, hafter, hfirst, by rw [horder]; decide⟩

/-- C6: a pagination fetch that terminates with an error produces an
ordinary (non-throwing) completion result — the error branch of the
fetch-completion handler returns through the same channel as the success
branch — in which the connection (edge list and page-info) is exactly the
one already rendered and `onComplete` is invoked exactly once, with that
error. -/
theorem c6_pagination_error_reported_only (dir : Direction) (m : String)
    (conn : ConnectionSnapshot) :
    completeFetch dir (FetchOutcome.failure m) conn =
      { conn := conn, onCompleteCalls := [some m] } := by
  cases dir <;> rfl

end Pagination
